import Mathlib

/-!
# Tyk OAS API-definition reconciler

A shallow embedding of `controllers/tykoasapidefinition_controller.go`
(`Reconcile`, `createOrUpdateTykOASAPI`, `updateStatus`, `getAPIID`, `delete`,
the field index of `SetupWithManager`, `findOASApisDependentOnConfigmap`,
`configmapEvents`), of `mockSecurityPolicy.Delete` from
`pkg/client/mock/mockdash/security_policy.go` and of `Client.HotReload` from
`pkg/gateway_client/client.go`.

Everything the controller calls but does not define is an explicit argument:

* `Deps` holds the code-level dependencies (the `jsonparser` lookups, `EncodeNS`,
  the `queueAfter` constant, the finalizer name);
* `World` holds, call site by call site, what the cluster client, the remote
  Tyk OAS client and the gateway answer during one pass.  Each call site is
  reached at most once per pass, so an answer that is a function of the
  call's arguments covers every behaviour of a stateful collaborator.

Remote calls are collected in the order they are issued (`calls`), cluster
writes likewise (`writes`).
-/

namespace TykOperator

/-! ## Go values -/

/-- A non-nil Go `error`.  `KeyPathNotFoundError` is the `jsonparser` sentinel the
controller compares against; `apiNotFound` is a cluster-API error for which
`apierrors.IsNotFound` holds; `other` is any other error. A nil `error` is
`none : Option GoError`. -/
inductive GoError where
  | KeyPathNotFoundError
  | apiNotFound (text : String)
  | other (text : String)
  deriving DecidableEq, Repr

deriving instance DecidableEq for Except

/-- The text `err.Error()`. -/
def GoError.Error : GoError → String
  | .KeyPathNotFoundError => "Key path not found"
  | .apiNotFound text => text
  | .other text => text

/-- The predicate `apierrors.IsNotFound`. -/
def GoError.IsNotFound : GoError → Bool
  | .apiNotFound _ => true
  | _ => false

/-- The function `client.IgnoreNotFound`. -/
def IgnoreNotFound (err : GoError) : Option GoError :=
  if err.IsNotFound then none else some err

/-- The type `types.NamespacedName`. -/
structure NamespacedName where
  Namespace : String
  Name : String
  deriving DecidableEq, Repr

/-- The method `NamespacedName.String`: namespace, a slash, name. -/
def NamespacedName.String (n : NamespacedName) : String :=
  n.Namespace ++ "/" ++ n.Name

/-! ## The resource -/

/-- The value of `v1alpha1.Successful`. -/
def Successful : String := "Successful"

/-- The value of `v1alpha1.Failed`. -/
def Failed : String := "Failed"

/-- The type `v1alpha1.TransactionInfo`; `Time = 0` is the zero time. -/
structure TransactionInfo where
  Time : Nat
  Status : String
  Error : String
  deriving DecidableEq, Repr

/-- The config-map reference `Spec.TykOAS.ConfigmapRef`. -/
structure ConfigmapRef where
  Name : String
  Namespace : String
  KeyName : String
  deriving DecidableEq, Repr

/-- The status of a `TykOasApiDefinition`. -/
structure TykOASStatus where
  ID : String
  Domain : String
  ListenPath : String
  TargetURL : String
  Enabled : Bool
  LatestTransaction : TransactionInfo
  deriving DecidableEq, Repr

/-- The resource `v1alpha1.TykOasApiDefinition`: the object metadata the
controller reads or writes, the config-map reference of its spec, its status.
`DeletionTimestamp = none` is the nil pointer. -/
structure TykOasApiDefinition where
  Namespace : String
  Name : String
  DeletionTimestamp : Option Nat
  Finalizers : List String
  ConfigmapRef : ConfigmapRef
  Status : TykOASStatus
  deriving DecidableEq, Repr

/-- The zero value `&v1alpha1.TykOasApiDefinition{}`. -/
def TykOasApiDefinition.zero : TykOasApiDefinition :=
  ⟨"", "", none, [], ⟨"", "", ""⟩, ⟨"", "", "", "", false, ⟨0, "", ""⟩⟩⟩

/-- The method `(*metav1.Time).IsZero`: nil or the zero time. -/
def IsZero : Option Nat → Bool
  | none => true
  | some t => t == 0

/-- The function `client.ObjectKeyFromObject`. -/
def ObjectKeyFromObject (o : TykOasApiDefinition) : NamespacedName :=
  ⟨o.Namespace, o.Name⟩

/-- The function `controllerutil.AddFinalizer`: append unless already present. -/
def AddFinalizer (o : TykOasApiDefinition) (finalizer : String) : TykOasApiDefinition :=
  if finalizer ∈ o.Finalizers then o
  else { o with Finalizers := o.Finalizers ++ [finalizer] }

/-- The function `controllerutil.RemoveFinalizer`: drop every occurrence. -/
def RemoveFinalizer (o : TykOasApiDefinition) (finalizer : String) : TykOasApiDefinition :=
  { o with Finalizers := o.Finalizers.filter (fun f => f != finalizer) }

/-- A `v1.ConfigMap`, reduced to its `Data` map. -/
structure ConfigMap where
  Data : List (String × String)
  deriving DecidableEq, Repr

/-- The map read `cm.Data[key]`: the empty string when the key is missing. -/
def ConfigMap.get (cm : ConfigMap) (key : String) : String :=
  match cm.Data.lookup key with
  | some v => v
  | none => ""

/-! ## Dependencies and collaborators -/

/-- The constant `TykOASExtenstionStr`. -/
def TykOASExtenstionStr : String := "x-tyk-api-gateway"

/-- Code the controller depends on and does not define.
`Get`, `GetString`, `GetBoolean` are the `jsonparser` lookups on a document and
a key path: `Get` is reduced to its error result (its three values are
discarded by the caller); `GetString` and `GetBoolean` return the zero value
together with every error, which is what `.error` stands for.
`EncodeNS`, `queueAfter` (a duration, in nanoseconds) and
`TykOASFinalizerName` are declared elsewhere in the repository. -/
structure Deps where
  Get : String → List String → Option GoError
  GetString : String → List String → Except GoError String
  GetBoolean : String → List String → Except GoError Bool
  EncodeNS : String → String
  queueAfter : Nat
  TykOASFinalizerName : String

/-- A call on the remote side: the Tyk OAS client or the gateway reload. -/
inductive RemoteCall where
  | Exists (id : String)
  | Create (id : String) (doc : String)
  | Update (id : String) (doc : String)
  | Delete (id : String)
  | HotReload
  deriving DecidableEq, Repr

/-- Whether a remote call changes the remote object store. -/
def RemoteCall.isMutation : RemoteCall → Bool
  | .Create _ _ => true
  | .Update _ _ => true
  | .Delete _ => true
  | _ => false

/-- A write to the cluster API. -/
inductive ClusterWrite where
  | Create (o : TykOasApiDefinition)
  | Update (o : TykOasApiDefinition)
  | StatusUpdate (o : TykOasApiDefinition)
  deriving DecidableEq, Repr

/-- The object a cluster write carries. -/
def ClusterWrite.obj : ClusterWrite → TykOasApiDefinition
  | .Create o => o
  | .Update o => o
  | .StatusUpdate o => o

/-- The answers of the collaborators during one pass, one field per call site.
`Get` is `r.Get` in `Reconcile`; `HttpContext` the error of `HttpContext`;
`couGet`, `couCreate`, `couUpdate` the cluster calls made inside
`controllerutil.CreateOrUpdate`; `cmGetSync` the config-map read of
`createOrUpdateTykOASAPI`, `cmGetStatus` the one of `updateStatus`;
`StatusUpdate` is `r.Client.Status().Update`; `Exists`, `Create`, `Update`,
`Delete` are the methods of `klient.Universal.TykOAS()`; `HotReload` is
`klient.Universal.HotReload`; `Now` and `NowStatus` are the readings of
`metav1.Now()` in `Reconcile` and in `updateStatus`. -/
structure World where
  Get : NamespacedName → Except GoError TykOasApiDefinition
  HttpContext : Option GoError
  couGet : NamespacedName → Option GoError
  couCreate : TykOasApiDefinition → Option GoError
  couUpdate : TykOasApiDefinition → Option GoError
  cmGetSync : NamespacedName → Except GoError ConfigMap
  cmGetStatus : NamespacedName → Except GoError ConfigMap
  StatusUpdate : TykOasApiDefinition → Option GoError
  Exists : String → Bool
  Create : String → String → Option GoError
  Update : String → String → Option GoError
  Delete : String → Option GoError
  HotReload : Option GoError
  Now : Nat
  NowStatus : Nat

/-! ## The controller -/

/-- The function `getAPIID`: the status ID when set, else the string at
`x-tyk-api-gateway.info.id`; a missing key path is not an error. -/
def getAPIID (D : Deps) (tykOASCrd : TykOasApiDefinition) (tykOASDoc : String) :
    Except GoError String :=
  if tykOASCrd.Status.ID ≠ "" then .ok tykOASCrd.Status.ID
  else
    match D.GetString tykOASDoc [TykOASExtenstionStr, "info", "id"] with
    | .ok val => .ok val
    | .error err =>
      if err ≠ GoError.KeyPathNotFoundError then .error err else .ok ""

/-- Lines 164-171 of `createOrUpdateTykOASAPI`: `getAPIID`, then `EncodeNS` of
the object key when the ID came back empty. -/
def resolveAPIID (D : Deps) (tykOASCrd : TykOasApiDefinition) (tykOASDoc : String) :
    Except GoError String :=
  match getAPIID D tykOASCrd tykOASDoc with
  | .error err => .error err
  | .ok apiID =>
    if apiID = "" then .ok (D.EncodeNS (ObjectKeyFromObject tykOASCrd).String)
    else .ok apiID

/-- What `createOrUpdateTykOASAPI` returns, with the remote calls it issued. -/
structure SyncResult where
  apiID : String
  err : Option GoError
  calls : List RemoteCall
  deriving DecidableEq, Repr

/-- The message prefix of the validation error. -/
def errMsg : String :=
  "invalid Tyk OAS APIDefinition. Failed to fetch value of `x-tyk-api-gateway` "

/-- The method `createOrUpdateTykOASAPI`. -/
def createOrUpdateTykOASAPI (D : Deps) (W : World) (tykOASCrd : TykOasApiDefinition) :
    SyncResult :=
  let ns : NamespacedName :=
    ⟨tykOASCrd.ConfigmapRef.Namespace, tykOASCrd.ConfigmapRef.Name⟩
  match W.cmGetSync ns with
  | .error err => ⟨"", some err, []⟩
  | .ok cm =>
    let tykOASDoc := cm.get tykOASCrd.ConfigmapRef.KeyName
    match D.Get tykOASDoc [TykOASExtenstionStr] with
    | some err => ⟨"", some (.other (errMsg ++ ": " ++ err.Error)), []⟩
    | none =>
      match resolveAPIID D tykOASCrd tykOASDoc with
      | .error err => ⟨"", some err, []⟩
      | .ok apiID =>
        if !W.Exists apiID then
          match W.Create apiID tykOASDoc with
          | some err => ⟨"", some err, [.Exists apiID, .Create apiID tykOASDoc]⟩
          | none => ⟨apiID, none, [.Exists apiID, .Create apiID tykOASDoc]⟩
        else
          match W.Update apiID tykOASDoc with
          | some err => ⟨"", some err, [.Exists apiID, .Update apiID tykOASDoc]⟩
          | none => ⟨apiID, none, [.Exists apiID, .Update apiID tykOASDoc]⟩

/-- What `delete` returns, with the object as it leaves it and the remote
calls it issued. -/
structure DeleteResult where
  obj : TykOasApiDefinition
  err : Option GoError
  calls : List RemoteCall
  deriving DecidableEq, Repr

/-- The function `delete`. -/
def delete (D : Deps) (W : World) (tykOASCrd : TykOasApiDefinition) : DeleteResult :=
  if tykOASCrd.Status.ID ≠ "" then
    match W.Delete tykOASCrd.Status.ID with
    | some err => ⟨tykOASCrd, some err, [.Delete tykOASCrd.Status.ID]⟩
    | none =>
      ⟨RemoveFinalizer tykOASCrd D.TykOASFinalizerName, none, [.Delete tykOASCrd.Status.ID]⟩
  else ⟨RemoveFinalizer tykOASCrd D.TykOASFinalizerName, none, []⟩

/-- The state the mutate closure of `Reconcile` leaves behind: the object, the
error it returns, and the captured variables `apiID` and `markForDeletion`. -/
structure MutateResult where
  obj : TykOasApiDefinition
  err : Option GoError
  apiID : String
  markForDeletion : Bool
  calls : List RemoteCall
  deriving DecidableEq, Repr

/-- The closure passed to `util.CreateOrUpdate` (lines 89-104). -/
def mutateFn (D : Deps) (W : World) (tykOAS : TykOasApiDefinition) : MutateResult :=
  if !IsZero tykOAS.DeletionTimestamp then
    let d := delete D W tykOAS
    ⟨d.obj, d.err, "", true, d.calls⟩
  else
    let o := AddFinalizer tykOAS D.TykOASFinalizerName
    let s := createOrUpdateTykOASAPI D W o
    ⟨o, s.err, s.apiID, false, s.calls⟩

/-- The state after the `util.CreateOrUpdate` call of `Reconcile`. -/
structure StepResult where
  obj : TykOasApiDefinition
  err : Option GoError
  apiID : String
  markForDeletion : Bool
  calls : List RemoteCall
  writes : List ClusterWrite
  deriving DecidableEq, Repr

/-- The error `mutate` of controller-runtime returns when the closure changed
the object key. -/
def mutateKeyError : GoError :=
  .other "MutateFn cannot mutate object name and/or object namespace"

/-- The call `util.CreateOrUpdate(ctx, r.Client, tykOAS, f)` with `f` the
closure `mutateFn`, following controller-runtime: read the object; when it is
not found run the closure and create, when the read fails return; otherwise
run the closure and update unless the object is unchanged.  A successful read
leaves the object as `r.Get` loaded it, and the answers to the writes (here
and in `updateStatus`) are taken for their error only. -/
def CreateOrUpdate (D : Deps) (W : World) (tykOAS : TykOasApiDefinition) : StepResult :=
  let key := ObjectKeyFromObject tykOAS
  match W.couGet key with
  | some err =>
    if !err.IsNotFound then ⟨tykOAS, some err, "", false, [], []⟩
    else
      let m := mutateFn D W tykOAS
      match m.err with
      | some e => ⟨m.obj, some e, m.apiID, m.markForDeletion, m.calls, []⟩
      | none =>
        if key ≠ ObjectKeyFromObject m.obj then
          ⟨m.obj, some mutateKeyError, m.apiID, m.markForDeletion, m.calls, []⟩
        else
          ⟨m.obj, W.couCreate m.obj, m.apiID, m.markForDeletion, m.calls, [.Create m.obj]⟩
  | none =>
    let m := mutateFn D W tykOAS
    match m.err with
    | some e => ⟨m.obj, some e, m.apiID, m.markForDeletion, m.calls, []⟩
    | none =>
      if key ≠ ObjectKeyFromObject m.obj then
        ⟨m.obj, some mutateKeyError, m.apiID, m.markForDeletion, m.calls, []⟩
      else if m.obj = tykOAS then
        ⟨m.obj, none, m.apiID, m.markForDeletion, m.calls, []⟩
      else
        ⟨m.obj, W.couUpdate m.obj, m.apiID, m.markForDeletion, m.calls, [.Update m.obj]⟩

/-- One extraction of `updateStatus`: the value is stored when the lookup
succeeds, the zero value when the key path is missing, and the field is left
as it was on any other error. -/
def extract {α : Type} (r : Except GoError α) (zero old : α) : α :=
  match r with
  | .ok v => v
  | .error err => if err ≠ GoError.KeyPathNotFoundError then old else zero

/-- The object `updateStatus` hands to `Status().Update` (lines 196-246). -/
def statusOf (D : Deps) (W : World) (tykOASCrd : TykOasApiDefinition) (apiID : String) :
    TykOasApiDefinition :=
  let c1 : TykOasApiDefinition :=
    if tykOASCrd.Status.ID = "" then
      { tykOASCrd with Status := { tykOASCrd.Status with ID := apiID } }
    else tykOASCrd
  let cmNS : NamespacedName := ⟨c1.ConfigmapRef.Namespace, c1.ConfigmapRef.Name⟩
  match W.cmGetStatus cmNS with
  | .error err =>
    { c1 with Status := { c1.Status with
        LatestTransaction := ⟨W.NowStatus, Failed, err.Error⟩ } }
  | .ok cm =>
    let tykOASDoc := cm.get c1.ConfigmapRef.KeyName
    { c1 with Status := { c1.Status with
        Enabled := extract
          (D.GetBoolean tykOASDoc [TykOASExtenstionStr, "info", "state", "active"])
          false c1.Status.Enabled
        Domain := extract
          (D.GetString tykOASDoc [TykOASExtenstionStr, "server", "customDomain"])
          "" c1.Status.Domain
        ListenPath := extract
          (D.GetString tykOASDoc [TykOASExtenstionStr, "server", "listenPath", "value"])
          "" c1.Status.ListenPath
        TargetURL := extract
          (D.GetString tykOASDoc [TykOASExtenstionStr, "upstream", "url"])
          "" c1.Status.TargetURL } }

/-- The method `updateStatus`: the object as it leaves it and the error of
`Status().Update`. -/
def updateStatus (D : Deps) (W : World) (tykOASCrd : TykOasApiDefinition) (apiID : String) :
    TykOasApiDefinition × Option GoError :=
  let o := statusOf D W tykOASCrd apiID
  (o, W.StatusUpdate o)

/-- The type `ctrl.Result`, reduced to `RequeueAfter` (nanoseconds). -/
structure Result where
  RequeueAfter : Nat
  deriving DecidableEq, Repr

/-- What one run of `Reconcile` returns and leaves behind: the result and
error it returns, the in-memory object at return, the remote calls and the
cluster writes it issued, in order. -/
structure ReconcileOut where
  result : Result
  err : Option GoError
  tykOAS : TykOasApiDefinition
  calls : List RemoteCall
  writes : List ClusterWrite
  deriving DecidableEq, Repr

/-- Lines 128-135 of `Reconcile`: the gateway reload and the final return. -/
def reload (W : World) (reqA : Nat) (err : Option GoError) (o : TykOasApiDefinition)
    (calls : List RemoteCall) (writes : List ClusterWrite) : ReconcileOut :=
  match W.HotReload with
  | some e => ⟨⟨reqA⟩, some e, o, calls ++ [.HotReload], writes⟩
  | none => ⟨⟨reqA⟩, err, o, calls ++ [.HotReload], writes⟩

/-- Lines 106-135 of `Reconcile`, from the state left by `util.CreateOrUpdate`. -/
def finish (D : Deps) (W : World) (s : StepResult) : ReconcileOut :=
  if !s.markForDeletion then
    let reqA : Nat := if s.err.isSome then D.queueAfter else 0
    let transactionInfo : TransactionInfo :=
      match s.err with
      | none => ⟨W.Now, Successful, ""⟩
      | some err => ⟨W.Now, Failed, err.Error⟩
    let o : TykOasApiDefinition :=
      { s.obj with Status := { s.obj.Status with LatestTransaction := transactionInfo } }
    let u := updateStatus D W o s.apiID
    match u.2 with
    | some err => ⟨⟨reqA⟩, some err, u.1, s.calls, s.writes ++ [.StatusUpdate u.1]⟩
    | none => reload W reqA none u.1 s.calls (s.writes ++ [.StatusUpdate u.1])
  else reload W 0 s.err s.obj s.calls s.writes

/-- The method `Reconcile`. -/
def Reconcile (D : Deps) (W : World) (req : NamespacedName) : ReconcileOut :=
  match W.Get req with
  | .error err => ⟨⟨0⟩, IgnoreNotFound err, TykOasApiDefinition.zero, [], []⟩
  | .ok tykOAS =>
    match W.HttpContext with
    | some err => ⟨⟨0⟩, some err, tykOAS, [], []⟩
    | none => finish D W (CreateOrUpdate D W tykOAS)

/-! ## The dashboard policy client -/

/-- An HTTP response, reduced to its status code and body. -/
structure HttpResponse where
  StatusCode : Nat
  Body : String
  deriving DecidableEq, Repr

/-- The value of `http.StatusOK`. -/
def StatusOK : Nat := 200

/-- What `mockSecurityPolicy.Delete` uses of package `client` and of its own
package, none of it defined in the files at hand: the request `client.Delete`
(its answer for a URL), `client.Join`, `client.Error` (a Go `error` computed
from a response, nil or not) and the constant `endpointPolicies`. -/
structure HttpClient where
  Delete : String → Except GoError HttpResponse
  Join : List String → String
  Error : HttpResponse → Option GoError
  endpointPolicies : String

/-- The method `mockSecurityPolicy.Delete` of the mock dashboard's
security-policy client.  The controller embedded above does not call it: its
remote delete is the `Delete` of `klient.Universal.TykOAS()`. -/
def mockSecurityPolicy.Delete (C : HttpClient) (id : String) : Option GoError :=
  match C.Delete (C.Join [C.endpointPolicies, id]) with
  | .error err => some err
  | .ok res => if res.StatusCode ≠ StatusOK then C.Error res else none

/-! ## The remote delete -/

/-- What the remote system answers to a request to delete an object. -/
inductive DeleteAnswer where
  | deleted
  | notFound
  | failed (err : GoError)
  deriving DecidableEq, Repr

/-- Modelled from the spec: the method `Delete` of `klient.Universal.TykOAS()`,
which the controller's `delete` calls and whose implementation is not among
the source files.  Section 6 of the specification gives its contract,
`Delete(id) -> error (must treat "not found" as success)`; by sections 4.5 and
7 a "not found" answer is normalised to success and any other failure is
returned. -/
def TykOAS.Delete (remote : String → DeleteAnswer) (id : String) : Option GoError :=
  match remote id with
  | .deleted => none
  | .notFound => none
  | .failed err => some err

/-! ## Dependency index and change filter -/

/-- The constant `TykOASConfigMapKey`, the name of the field index. -/
def TykOASConfigMapKey : String := "spec.tykOAS.configmapRef.name"

/-- The index function `SetupWithManager` registers under
`TykOASConfigMapKey`: the values a resource is indexed by. -/
def indexFunc (tykOAS : TykOasApiDefinition) : List String :=
  [tykOAS.ConfigmapRef.Name]

/-- A config-map `client.Object` as a notification carries it: namespace, name
and data. -/
structure ClientObject where
  Namespace : String
  Name : String
  Data : List (String × String)
  deriving DecidableEq, Repr

/-- The method `GetName` of a `client.Object`. -/
def ClientObject.GetName (o : ClientObject) : String := o.Name

/-- The resources held by the cluster client, and the error of its `List`
call, if any. -/
structure Cache where
  Items : List TykOasApiDefinition
  ListErr : Option GoError

/-- The call `r.List` with the one-term field selector
`TykOASConfigMapKey = value` and no namespace in the list options, following
controller-runtime: the resources of every namespace that the registered index
function maps to `value`. -/
def Cache.List (C : Cache) (value : String) : Except GoError (List TykOasApiDefinition) :=
  match C.ListErr with
  | some err => .error err
  | none => .ok (C.Items.filter (fun o => decide (value ∈ indexFunc o)))

/-- The type `reconcile.Request`. -/
structure Request where
  NamespacedName : TykOperator.NamespacedName
  deriving DecidableEq, Repr

/-- The method `findOASApisDependentOnConfigmap`. -/
def findOASApisDependentOnConfigmap (C : Cache) (cm : ClientObject) : List Request :=
  match C.List cm.GetName with
  | .error _ => []
  | .ok Items => Items.map (fun item => ⟨⟨item.Namespace, item.Name⟩⟩)

/-- The type `event.CreateEvent`. -/
structure CreateEvent where
  Object : ClientObject
  deriving DecidableEq, Repr

/-- The type `event.UpdateEvent`. -/
structure UpdateEvent where
  ObjectOld : ClientObject
  ObjectNew : ClientObject
  deriving DecidableEq, Repr

/-- The type `event.DeleteEvent`. -/
structure DeleteEvent where
  Object : ClientObject
  DeleteStateUnknown : Bool
  deriving DecidableEq, Repr

/-- The type `event.GenericEvent`. -/
structure GenericEvent where
  Object : ClientObject
  deriving DecidableEq, Repr

/-- The type `predicate.Funcs`: a field left out is the nil function. -/
structure Funcs where
  CreateFunc : Option (CreateEvent → Bool)
  DeleteFunc : Option (DeleteEvent → Bool)
  UpdateFunc : Option (UpdateEvent → Bool)
  GenericFunc : Option (GenericEvent → Bool)

/-- The method `Funcs.Create`: the function when set, true otherwise. -/
def Funcs.Create (p : Funcs) (e : CreateEvent) : Bool :=
  match p.CreateFunc with
  | some f => f e
  | none => true

/-- The method `Funcs.Delete`. -/
def Funcs.Delete (p : Funcs) (e : DeleteEvent) : Bool :=
  match p.DeleteFunc with
  | some f => f e
  | none => true

/-- The method `Funcs.Update`. -/
def Funcs.Update (p : Funcs) (e : UpdateEvent) : Bool :=
  match p.UpdateFunc with
  | some f => f e
  | none => true

/-- The method `Funcs.Generic`. -/
def Funcs.Generic (p : Funcs) (e : GenericEvent) : Bool :=
  match p.GenericFunc with
  | some f => f e
  | none => true

/-- The method `configmapEvents`. -/
def configmapEvents : Funcs where
  CreateFunc := some (fun _ => false)
  UpdateFunc := some (fun _ => true)
  DeleteFunc := some (fun _ => true)
  GenericFunc := none

/-! ## The gateway client -/

/-- The constant `endpointReload`. -/
def endpointReload : String := "/tyk/reload/group"

/-- The type `ResponseMsg` of package `gateway_client`. -/
structure ResponseMsg where
  Key : String
  Status : String
  Action : String
  Message : String
  deriving DecidableEq, Repr

/-- The function `toURL`. -/
def toURL (parts : List String) : List String := parts

/-- What `Client.HotReload` uses of package `universal_client`, not defined in
the files at hand: the request `Client.Get` (its answer for a URL) and the
decoder `JSON` (the message it decodes a response into, or its error). -/
structure UniversalClient where
  Get : List String → Except GoError HttpResponse
  JSON : HttpResponse → Except GoError ResponseMsg

/-- The method `Client.HotReload` of package `gateway_client`. -/
def Client.HotReload (c : UniversalClient) : Option GoError :=
  match c.Get (toURL [endpointReload]) with
  | .error err => some err
  | .ok res =>
    match c.JSON res with
    | .error err => some err
    | .ok resMsg =>
      if resMsg.Status ≠ "ok" then
        some (.other ("API request completed, but with error: " ++ resMsg.Message))
      else none

/-! ## Reference definition and sample inputs -/

/-- Three-case identity resolution as the specification words it: the status
ID when non-empty, else a non-empty identifier embedded in the document, else
the encoding of the namespace/name key. -/
def resolveIDSpec (D : Deps) (tykOASCrd : TykOasApiDefinition) (tykOASDoc : String) : String :=
  if tykOASCrd.Status.ID ≠ "" then tykOASCrd.Status.ID
  else
    match D.GetString tykOASDoc [TykOASExtenstionStr, "info", "id"] with
    | .ok val =>
      if val ≠ "" then val else D.EncodeNS (ObjectKeyFromObject tykOASCrd).String
    | .error _ => D.EncodeNS (ObjectKeyFromObject tykOASCrd).String

/-- A document with the extension section and a string ID:
`{"x-tyk-api-gateway":{"info":{"id":"abc123"}}}`. -/
def docWithID : String :=
  "\x7b\"x-tyk-api-gateway\":\x7b\"info\":\x7b\"id\":\"abc123\"\x7d\x7d\x7d"

/-- A document with the extension section whose ID is a number:
`{"x-tyk-api-gateway":{"info":{"id":5}}}`. -/
def docNumericID : String :=
  "\x7b\"x-tyk-api-gateway\":\x7b\"info\":\x7b\"id\":5\x7d\x7d\x7d"

/-- A document without the extension section: `{"openapi":"3.0.3"}`. -/
def docNoSection : String :=
  "\x7b\"openapi\":\"3.0.3\"\x7d"

/-- The error of `jsonparser.Get` on the sample documents: the extension
section is found in `docWithID` and `docNumericID` and nowhere else. -/
def sampleGet (doc : String) (path : List String) : Option GoError :=
  if path = [TykOASExtenstionStr] ∧ (doc = docWithID ∨ doc = docNumericID) then none
  else some .KeyPathNotFoundError

/-- The answer of `jsonparser.GetString` on the sample documents: the ID of
`docWithID` is the string `abc123`; the ID of `docNumericID` is found and is
not a JSON string, for which the library returns the error
`Value is not a string: ` followed by the raw value; every other path is
missing. -/
def sampleGetString (doc : String) (path : List String) : Except GoError String :=
  if path = [TykOASExtenstionStr, "info", "id"] then
    if doc = docWithID then .ok "abc123"
    else if doc = docNumericID then .error (.other "Value is not a string: 5")
    else .error .KeyPathNotFoundError
  else .error .KeyPathNotFoundError

/-- The answer of `jsonparser.GetBoolean` on the sample documents: none of
them has the path. -/
def sampleGetBoolean (_doc : String) (_path : List String) : Except GoError Bool :=
  .error .KeyPathNotFoundError

/-- Sample dependencies: the lookups above, a three-second `queueAfter`, a
finalizer name, and a stand-in encoding that no sample run reaches. -/
def sampleDeps : Deps :=
  ⟨sampleGet, sampleGetString, sampleGetBoolean, fun key => "enc-" ++ key,
    3000000000, "finalizers.tyk.io/tykoas"⟩

/-- A fresh resource `default/petstore` reading key `oas.json` of config map
`default/petstore-cm`. -/
def petstore : TykOasApiDefinition :=
  ⟨"default", "petstore", none, [], ⟨"petstore-cm", "default", "oas.json"⟩,
    ⟨"", "", "", "", false, ⟨0, "", ""⟩⟩⟩

/-- The resource `petstore` once synced (ID `abc123`, finalizer set) and with
deletion requested at time 7. -/
def petstoreDeleting : TykOasApiDefinition :=
  { petstore with
    DeletionTimestamp := some 7
    Finalizers := ["finalizers.tyk.io/tykoas"]
    Status := ⟨"abc123", "", "", "", false, ⟨5, "Successful", ""⟩⟩ }

/-- A world in which every collaborator succeeds: the cluster returns the
resource `o`, the config map holds `doc` under `oas.json`, the remote object
does not exist yet, the clock reads 10 and 11. -/
def sampleWorld (o : TykOasApiDefinition) (doc : String) : World where
  Get := fun _ => .ok o
  HttpContext := none
  couGet := fun _ => none
  couCreate := fun _ => none
  couUpdate := fun _ => none
  cmGetSync := fun _ => .ok ⟨[("oas.json", doc)]⟩
  cmGetStatus := fun _ => .ok ⟨[("oas.json", doc)]⟩
  StatusUpdate := fun _ => none
  Exists := fun _ => false
  Create := fun _ _ => none
  Update := fun _ _ => none
  Delete := fun _ => none
  HotReload := none
  Now := 10
  NowStatus := 11

/-- The world of `petstoreDeleting` in which the remote `Delete` fails. -/
def worldDeleteFails : World :=
  { sampleWorld petstoreDeleting docWithID with
    Delete := fun _ => some (.other "gateway unreachable") }

/-- The world of `petstore` whose document embeds a numeric ID. -/
def worldNumericID : World := sampleWorld petstore docNumericID

/-- The world of `petstore` whose document lacks the extension section. -/
def worldNoSection : World := sampleWorld petstore docNoSection

/-- The world of `petstore` in which the sync succeeds and the reload fails. -/
def worldReloadFails : World :=
  { sampleWorld petstore docWithID with HotReload := some (.other "reload failed") }

/-- The world of `petstore` in which the sync succeeds and the config map is
gone by the time the reporter reads it. -/
def worldStatusReadFails : World :=
  { sampleWorld petstore docWithID with
    cmGetStatus := fun _ => .error (.apiNotFound "configmaps \"petstore-cm\" not found") }

/-- The world of `petstoreDeleting` whose remote `Delete` is `TykOAS.Delete`
against a remote system that no longer has the object. -/
def worldRemoteGone : World :=
  { sampleWorld petstoreDeleting docWithID with
    Delete := TykOAS.Delete (fun _ => .notFound) }

/-- The world of `petstoreDeleting` in which the remote `Delete` and the
reload both fail. -/
def worldDeleteAndReloadFail : World :=
  { sampleWorld petstoreDeleting docWithID with
    Delete := fun _ => some (.other "gateway unreachable")
    HotReload := some (.other "reload failed") }

/-- A document with the extension section, an active state, a listen path and
an upstream URL, and no custom domain:
`{"x-tyk-api-gateway":{"info":{"id":"abc123","state":{"active":true}},`
`"server":{"listenPath":{"value":"/petstore/"}},`
`"upstream":{"url":"http://petstore.svc:8080"}}}`. -/
def docDrift : String :=
  "\x7b\"x-tyk-api-gateway\":\x7b\"info\":\x7b\"id\":\"abc123\",\"state\":\x7b\"active\":true\x7d\x7d,"
    ++ "\"server\":\x7b\"listenPath\":\x7b\"value\":\"/petstore/\"\x7d\x7d,"
    ++ "\"upstream\":\x7b\"url\":\"http://petstore.svc:8080\"\x7d\x7d\x7d"

/-- The error of `jsonparser.Get` on `docDrift`: the extension section is
found. -/
def driftGet (doc : String) (path : List String) : Option GoError :=
  if path = [TykOASExtenstionStr] ∧ doc = docDrift then none
  else some .KeyPathNotFoundError

/-- The answer of `jsonparser.GetString` on `docDrift`: the ID, the listen
path and the upstream URL are the strings found there; the custom domain, like
every other path, is missing. -/
def driftGetString (doc : String) (path : List String) : Except GoError String :=
  if doc = docDrift then
    if path = [TykOASExtenstionStr, "info", "id"] then .ok "abc123"
    else if path = [TykOASExtenstionStr, "server", "listenPath", "value"] then
      .ok "/petstore/"
    else if path = [TykOASExtenstionStr, "upstream", "url"] then
      .ok "http://petstore.svc:8080"
    else .error .KeyPathNotFoundError
  else .error .KeyPathNotFoundError

/-- The answer of `jsonparser.GetBoolean` on `docDrift`: the state is active. -/
def driftGetBoolean (doc : String) (path : List String) : Except GoError Bool :=
  if doc = docDrift ∧ path = [TykOASExtenstionStr, "info", "state", "active"] then .ok true
  else .error .KeyPathNotFoundError

/-- The dependencies of `sampleDeps` with the lookups on `docDrift`. -/
def driftDeps : Deps :=
  ⟨driftGet, driftGetString, driftGetBoolean, fun key => "enc-" ++ key,
    3000000000, "finalizers.tyk.io/tykoas"⟩

/-- The resource `petstore` once synced, with observed fields of an earlier
document: disabled, a custom domain, an old listen path and upstream URL. -/
def petstoreObserved : TykOasApiDefinition :=
  { petstore with
    Finalizers := ["finalizers.tyk.io/tykoas"]
    Status := ⟨"abc123", "old.example.com", "/old/", "http://old.svc:8080", false,
      ⟨5, "Successful", ""⟩⟩ }

/-- The world of `petstoreObserved` whose config map now holds `docDrift` and
whose remote object exists. -/
def worldDrift : World :=
  { sampleWorld petstoreObserved docDrift with Exists := fun _ => true }

/-- A second resource, `staging/orders`, reading config map
`staging/petstore-cm`: same config-map name as `petstore`, other namespace. -/
def orders : TykOasApiDefinition :=
  ⟨"staging", "orders", none, [], ⟨"petstore-cm", "staging", "oas.json"⟩,
    ⟨"", "", "", "", false, ⟨0, "", ""⟩⟩⟩

/-- A cache holding `petstore` and `orders`, whose `List` succeeds. -/
def sampleCache : Cache := ⟨[petstore, orders], none⟩

/-- The config map `default/petstore-cm`. -/
def petstoreCM : ClientObject := ⟨"default", "petstore-cm", [("oas.json", docWithID)]⟩

/-- A resource never synced (empty status ID) whose deletion is requested,
holding the controller's finalizer between two foreign ones. -/
def unsyncedDeleting : TykOasApiDefinition :=
  { petstore with
    DeletionTimestamp := some 7
    Finalizers := ["example.io/first", "finalizers.tyk.io/tykoas", "example.io/last"] }

/-- The request for `default/petstore`. -/
def petstoreReq : NamespacedName := ⟨"default", "petstore"⟩

/-! ## External identity resolution -/

/-- Claim C1, as stated, fails: for the fresh resource `petstore` and a
document whose embedded ID is the number 5, the reference definition resolves
to the encoded key while the controller resolves nothing and returns the
lookup error. -/
theorem resolveAPIID_numeric_id_differs :
    resolveAPIID sampleDeps petstore docNumericID
        = .error (.other "Value is not a string: 5")
      ∧ resolveIDSpec sampleDeps petstore docNumericID = "enc-default/petstore"
      ∧ resolveAPIID sampleDeps petstore docNumericID
        ≠ .ok (resolveIDSpec sampleDeps petstore docNumericID) := by
  decide

/-- Claim C1, amended: the status ID wins when non-empty; otherwise a
non-empty string at `x-tyk-api-gateway.info.id` wins; otherwise, when that
lookup fails with an error other than key-path-not-found, no ID is resolved
and the error is returned; in every remaining case the ID is `EncodeNS` of the
namespace/name key.  Outside the failing-lookup case the controller's
resolution equals the three-case reference definition. -/
theorem resolveAPIID_precedence (D : Deps) (crd : TykOasApiDefinition) (doc : String) :
    (crd.Status.ID ≠ "" → resolveAPIID D crd doc = .ok crd.Status.ID)
    ∧ (∀ val, crd.Status.ID = "" →
        D.GetString doc [TykOASExtenstionStr, "info", "id"] = .ok val → val ≠ "" →
        resolveAPIID D crd doc = .ok val)
    ∧ (∀ err, crd.Status.ID = "" →
        D.GetString doc [TykOASExtenstionStr, "info", "id"] = .error err →
        err ≠ GoError.KeyPathNotFoundError →
        resolveAPIID D crd doc = .error err)
    ∧ (crd.Status.ID = "" →
        (D.GetString doc [TykOASExtenstionStr, "info", "id"] = .ok ""
          ∨ D.GetString doc [TykOASExtenstionStr, "info", "id"]
              = .error GoError.KeyPathNotFoundError) →
        resolveAPIID D crd doc = .ok (D.EncodeNS (ObjectKeyFromObject crd).String))
    ∧ ((crd.Status.ID ≠ "" ∨
          ∀ err, D.GetString doc [TykOASExtenstionStr, "info", "id"] = .error err →
            err = GoError.KeyPathNotFoundError) →
        resolveAPIID D crd doc = .ok (resolveIDSpec D crd doc)) := by
  refine ⟨?_, ?_, ?_, ?_, ?_⟩
  · intro h
    simp [resolveAPIID, getAPIID, h]
  · intro val h hv hne
    simp [resolveAPIID, getAPIID, h, hv, hne]
  · intro err h hv hne
    simp [resolveAPIID, getAPIID, h, hv, hne]
  · intro h hv
    rcases hv with hv | hv <;> simp [resolveAPIID, getAPIID, h, hv]
  · intro h
    by_cases hid : crd.Status.ID = ""
    · have hall := h.resolve_left (fun hne => hne hid)
      cases hv : D.GetString doc [TykOASExtenstionStr, "info", "id"] with
      | error err =>
        have := hall err hv
        subst this
        simp [resolveAPIID, getAPIID, resolveIDSpec, hid, hv]
      | ok val =>
        by_cases hval : val = "" <;>
          simp [resolveAPIID, getAPIID, resolveIDSpec, hid, hv, hval]
    · simp [resolveAPIID, getAPIID, resolveIDSpec, hid]

/-! ## Shared facts about the steps of a pass -/

/-- The reporter never touches the finalizers. -/
theorem statusOf_Finalizers (D : Deps) (W : World) (o : TykOasApiDefinition) (apiID : String) :
    (statusOf D W o apiID).Finalizers = o.Finalizers := by
  unfold statusOf
  by_cases hid : o.Status.ID = "" <;> simp only [hid, if_true, if_false] <;>
    split <;> rfl

/-- The reporter assigns the status ID only when it is empty. -/
theorem statusOf_ID (D : Deps) (W : World) (o : TykOasApiDefinition) (apiID : String) :
    (statusOf D W o apiID).Status.ID = if o.Status.ID = "" then apiID else o.Status.ID := by
  unfold statusOf
  by_cases hid : o.Status.ID = "" <;> simp only [hid, if_true, if_false] <;>
    split <;> simp_all

/-- The transaction the reporter leaves: the one it was handed when its own
config-map read succeeds, a failed one carrying the read error otherwise. -/
theorem statusOf_LatestTransaction (D : Deps) (W : World) (o : TykOasApiDefinition)
    (apiID : String) :
    (statusOf D W o apiID).Status.LatestTransaction =
      match W.cmGetStatus ⟨o.ConfigmapRef.Namespace, o.ConfigmapRef.Name⟩ with
      | .ok _ => o.Status.LatestTransaction
      | .error err => ⟨W.NowStatus, Failed, err.Error⟩ := by
  unfold statusOf
  by_cases h : o.Status.ID = "" <;> simp only [h, if_true, if_false] <;>
    split <;> simp_all

/-- The closure on a resource whose deletion is requested is `delete`. -/
theorem mutateFn_deleting (D : Deps) (W : World) (o : TykOasApiDefinition)
    (h : IsZero o.DeletionTimestamp = false) :
    mutateFn D W o =
      ⟨(delete D W o).obj, (delete D W o).err, "", true, (delete D W o).calls⟩ := by
  simp [mutateFn, h]

/-- The closure on a resource whose deletion is not requested adds the
finalizer and syncs. -/
theorem mutateFn_live (D : Deps) (W : World) (o : TykOasApiDefinition)
    (h : IsZero o.DeletionTimestamp = true) :
    mutateFn D W o =
      ⟨AddFinalizer o D.TykOASFinalizerName,
        (createOrUpdateTykOASAPI D W (AddFinalizer o D.TykOASFinalizerName)).err,
        (createOrUpdateTykOASAPI D W (AddFinalizer o D.TykOASFinalizerName)).apiID, false,
        (createOrUpdateTykOASAPI D W (AddFinalizer o D.TykOASFinalizerName)).calls⟩ := by
  simp [mutateFn, h]

/-- The `CreateOrUpdate` step stops before the closure when its own read of
the object fails with anything but not-found. -/
theorem CreateOrUpdate_unreached (D : Deps) (W : World) (o : TykOasApiDefinition)
    (err : GoError) (hg : W.couGet (ObjectKeyFromObject o) = some err)
    (hnf : err.IsNotFound = false) :
    CreateOrUpdate D W o = ⟨o, some err, "", false, [], []⟩ := by
  unfold CreateOrUpdate
  simp [hg, hnf]

/-- Otherwise the `CreateOrUpdate` step runs the closure exactly once, returns
the closure's error when it has one, and writes at most the object the closure
left, and only after the closure succeeded. -/
theorem CreateOrUpdate_reached (D : Deps) (W : World) (o : TykOasApiDefinition)
    (hReach : ∀ err, W.couGet (ObjectKeyFromObject o) = some err → err.IsNotFound = true) :
    (CreateOrUpdate D W o).obj = (mutateFn D W o).obj
    ∧ (CreateOrUpdate D W o).apiID = (mutateFn D W o).apiID
    ∧ (CreateOrUpdate D W o).markForDeletion = (mutateFn D W o).markForDeletion
    ∧ (CreateOrUpdate D W o).calls = (mutateFn D W o).calls
    ∧ (∀ e, (mutateFn D W o).err = some e →
        (CreateOrUpdate D W o).err = some e ∧ (CreateOrUpdate D W o).writes = [])
    ∧ (∀ w ∈ (CreateOrUpdate D W o).writes,
        w.obj = (mutateFn D W o).obj ∧ (mutateFn D W o).err = none) := by
  unfold CreateOrUpdate
  dsimp only
  cases hg : W.couGet (ObjectKeyFromObject o) with
  | some err =>
    have hnf := hReach err hg
    cases hm : (mutateFn D W o).err with
    | some e => simp [hnf, hm]
    | none =>
      by_cases hk : ObjectKeyFromObject o = ObjectKeyFromObject (mutateFn D W o).obj
      · simp [hnf, hm, ← hk, ClusterWrite.obj]
      · simp [hnf, hm, hk]
  | none =>
    cases hm : (mutateFn D W o).err with
    | some e => simp [hm]
    | none =>
      by_cases hk : ObjectKeyFromObject o = ObjectKeyFromObject (mutateFn D W o).obj
      · by_cases he : (mutateFn D W o).obj = o
        · simp [hm, ← hk, he]
        · simp [hm, ← hk, he, ClusterWrite.obj]
      · simp [hm, hk]

/-- The `CreateOrUpdate` step either stops at its own read of the object,
before the closure runs, or runs the closure exactly once and writes at most
the object the closure left. -/
theorem CreateOrUpdate_cases (D : Deps) (W : World) (o : TykOasApiDefinition) :
    (∃ err, CreateOrUpdate D W o = ⟨o, some err, "", false, [], []⟩)
    ∨ ((CreateOrUpdate D W o).obj = (mutateFn D W o).obj
      ∧ (CreateOrUpdate D W o).apiID = (mutateFn D W o).apiID
      ∧ (CreateOrUpdate D W o).markForDeletion = (mutateFn D W o).markForDeletion
      ∧ (CreateOrUpdate D W o).calls = (mutateFn D W o).calls
      ∧ (∀ e, (mutateFn D W o).err = some e →
          (CreateOrUpdate D W o).err = some e ∧ (CreateOrUpdate D W o).writes = [])
      ∧ (∀ w ∈ (CreateOrUpdate D W o).writes,
          w.obj = (mutateFn D W o).obj ∧ (mutateFn D W o).err = none)) := by
  by_cases h : ∀ err, W.couGet (ObjectKeyFromObject o) = some err → err.IsNotFound = true
  · exact Or.inr (CreateOrUpdate_reached D W o h)
  · push_neg at h
    obtain ⟨err, hg, hnf⟩ := h
    exact Or.inl ⟨err, CreateOrUpdate_unreached D W o err hg (by simpa using hnf)⟩

/-- The reload step returns the delay and object it is handed, adds one
`HotReload` call after the calls so far and writes nothing. -/
theorem reload_fields (W : World) (reqA : Nat) (err : Option GoError)
    (o : TykOasApiDefinition) (calls : List RemoteCall) (writes : List ClusterWrite) :
    (reload W reqA err o calls writes).result = ⟨reqA⟩
    ∧ (reload W reqA err o calls writes).tykOAS = o
    ∧ (reload W reqA err o calls writes).calls = calls ++ [.HotReload]
    ∧ (reload W reqA err o calls writes).writes = writes := by
  unfold reload
  split <;> simp

/-- The tail of a pass on a resource marked for deletion is the reload alone. -/
theorem finish_deleting (D : Deps) (W : World) (s : StepResult)
    (h : s.markForDeletion = true) :
    finish D W s = reload W 0 s.err s.obj s.calls s.writes := by
  simp [finish, h]

/-- The tail of a pass on a resource not marked for deletion: delay, object,
calls and writes. -/
theorem finish_live (D : Deps) (W : World) (s : StepResult)
    (h : s.markForDeletion = false) :
    (finish D W s).result = ⟨if s.err.isSome then D.queueAfter else 0⟩
    ∧ (finish D W s).tykOAS =
        statusOf D W
          { s.obj with Status := { s.obj.Status with LatestTransaction :=
              match s.err with
              | none => ⟨W.Now, Successful, ""⟩
              | some err => ⟨W.Now, Failed, err.Error⟩ } } s.apiID
    ∧ (finish D W s).writes = s.writes ++ [.StatusUpdate (finish D W s).tykOAS]
    ∧ ((finish D W s).calls = s.calls ∨ (finish D W s).calls = s.calls ++ [.HotReload]) := by
  unfold finish updateStatus
  simp only [h, Bool.not_false, if_true]
  split
  · simp
  · simp [reload_fields]

/-- The two outcomes of `delete` on a resource that has an external ID. -/
theorem delete_with_ID (D : Deps) (W : World) (o : TykOasApiDefinition)
    (hID : o.Status.ID ≠ "") :
    (∀ e, W.Delete o.Status.ID = some e →
        delete D W o = ⟨o, some e, [.Delete o.Status.ID]⟩)
    ∧ (W.Delete o.Status.ID = none →
        delete D W o
          = ⟨RemoveFinalizer o D.TykOASFinalizerName, none, [.Delete o.Status.ID]⟩) := by
  constructor
  · intro e he
    simp [delete, hID, he]
  · intro he
    simp [delete, hID, he]

/-- A pass that loaded the resource and built its HTTP context is the tail
`finish` applied to the `CreateOrUpdate` step. -/
theorem Reconcile_loaded (D : Deps) (W : World) (req : NamespacedName)
    (o : TykOasApiDefinition) (hGet : W.Get req = .ok o) (hCtx : W.HttpContext = none) :
    Reconcile D W req = finish D W (CreateOrUpdate D W o) := by
  simp [Reconcile, hGet, hCtx]

/-- A pass that fails to build its HTTP context touches nothing. -/
theorem Reconcile_no_context (D : Deps) (W : World) (req : NamespacedName)
    (o : TykOasApiDefinition) (hGet : W.Get req = .ok o) (e : GoError)
    (hCtx : W.HttpContext = some e) :
    Reconcile D W req = ⟨⟨0⟩, some e, o, [], []⟩ := by
  simp [Reconcile, hGet, hCtx]

/-- The closure changes nothing of the object but its finalizers. -/
theorem mutateFn_obj (D : Deps) (W : World) (o : TykOasApiDefinition) :
    (mutateFn D W o).obj = { o with Finalizers := (mutateFn D W o).obj.Finalizers } := by
  unfold mutateFn
  split
  · unfold delete
    split
    · split <;> rfl
    · rfl
  · unfold AddFinalizer
    split <;> rfl

/-- The `CreateOrUpdate` step changes nothing of the object but its
finalizers. -/
theorem CreateOrUpdate_obj (D : Deps) (W : World) (o : TykOasApiDefinition) :
    (CreateOrUpdate D W o).obj
      = { o with Finalizers := (CreateOrUpdate D W o).obj.Finalizers } := by
  rcases CreateOrUpdate_cases D W o with ⟨err, hs⟩ | ⟨hobj, -⟩
  · rw [hs]
  · rw [hobj]
    exact mutateFn_obj D W o

/-- Every cluster write of the `CreateOrUpdate` step carries the object the
step leaves in memory. -/
theorem CreateOrUpdate_writes (D : Deps) (W : World) (o : TykOasApiDefinition) :
    ∀ w ∈ (CreateOrUpdate D W o).writes, w.obj = (CreateOrUpdate D W o).obj := by
  rcases CreateOrUpdate_cases D W o with ⟨err, hs⟩ | ⟨hobj, -, -, -, -, hw⟩
  · rw [hs]
    simp
  · intro w hmem
    rw [hobj]
    exact (hw w hmem).1

/-- A resource whose deletion is not requested is never marked for deletion. -/
theorem CreateOrUpdate_live (D : Deps) (W : World) (o : TykOasApiDefinition)
    (h : IsZero o.DeletionTimestamp = true) :
    (CreateOrUpdate D W o).markForDeletion = false := by
  rcases CreateOrUpdate_cases D W o with ⟨err, hs⟩ | ⟨-, -, hmark, -⟩
  · rw [hs]
  · rw [hmark, mutateFn_live D W o h]

/-- Adding a finalizer leaves the config-map reference alone. -/
theorem AddFinalizer_ConfigmapRef (o : TykOasApiDefinition) (f : String) :
    (AddFinalizer o f).ConfigmapRef = o.ConfigmapRef := by
  unfold AddFinalizer
  split <;> rfl

/-- A document without the extension section stops the sync before any remote
call, with the validation error and an empty ID. -/
theorem createOrUpdate_validation (D : Deps) (W : World) (o : TykOasApiDefinition)
    (cm : ConfigMap) (e : GoError)
    (hcm : W.cmGetSync ⟨o.ConfigmapRef.Namespace, o.ConfigmapRef.Name⟩ = .ok cm)
    (hsec : D.Get (cm.get o.ConfigmapRef.KeyName) [TykOASExtenstionStr] = some e) :
    createOrUpdateTykOASAPI D W o
      = ⟨"", some (.other (errMsg ++ ": " ++ e.Error)), []⟩ := by
  unfold createOrUpdateTykOASAPI
  simp only [hcm, hsec]

/-- The text of the validation error is never empty. -/
theorem validation_text_ne (e : GoError) :
    (GoError.other (errMsg ++ ": " ++ e.Error)).Error ≠ "" := by
  intro h
  have hl := congrArg String.length h
  simp only [GoError.Error, String.length_append] at hl
  have hpos : 0 < errMsg.length := by decide
  have h0 : ("" : String).length = 0 := rfl
  omega

/-- The outcome of a pass on a loaded resource whose deletion is not
requested, in terms of the `CreateOrUpdate` step: the requeue delay, the
transaction left on the object, the status write, the remote calls. -/
theorem Reconcile_live (D : Deps) (W : World) (req : NamespacedName)
    (o : TykOasApiDefinition) (hGet : W.Get req = .ok o) (hCtx : W.HttpContext = none)
    (hLive : IsZero o.DeletionTimestamp = true) :
    (Reconcile D W req).result
        = ⟨if (CreateOrUpdate D W o).err.isSome then D.queueAfter else 0⟩
    ∧ (Reconcile D W req).tykOAS.Status.LatestTransaction
        = (match W.cmGetStatus ⟨o.ConfigmapRef.Namespace, o.ConfigmapRef.Name⟩ with
          | .ok _ =>
            (match (CreateOrUpdate D W o).err with
              | none => ⟨W.Now, Successful, ""⟩
              | some err => ⟨W.Now, Failed, err.Error⟩)
          | .error e2 => ⟨W.NowStatus, Failed, e2.Error⟩)
    ∧ (Reconcile D W req).writes
        = (CreateOrUpdate D W o).writes ++ [.StatusUpdate (Reconcile D W req).tykOAS]
    ∧ ((Reconcile D W req).calls = (CreateOrUpdate D W o).calls
        ∨ (Reconcile D W req).calls = (CreateOrUpdate D W o).calls ++ [.HotReload]) := by
  rw [Reconcile_loaded D W req o hGet hCtx]
  obtain ⟨hr, ho, hw, hc⟩ :=
    finish_live D W (CreateOrUpdate D W o) (CreateOrUpdate_live D W o hLive)
  refine ⟨hr, ?_, hw, hc⟩
  rw [ho, statusOf_LatestTransaction]
  have hso : (CreateOrUpdate D W o).obj.ConfigmapRef = o.ConfigmapRef := by
    rw [CreateOrUpdate_obj D W o]
  simp only [hso]

/-- The reload step returns the reload error when there is one, and the error
it was handed otherwise. -/
theorem reload_err (W : World) (reqA : Nat) (err : Option GoError)
    (o : TykOasApiDefinition) (calls : List RemoteCall) (writes : List ClusterWrite) :
    (reload W reqA err o calls writes).err =
      match W.HotReload with
      | some e => some e
      | none => err := by
  unfold reload
  split <;> rfl

/-- The closure never reloads the gateway. -/
theorem mutateFn_no_reload (D : Deps) (W : World) (o : TykOasApiDefinition) :
    ∀ c ∈ (mutateFn D W o).calls, c ≠ RemoteCall.HotReload := by
  unfold mutateFn
  split
  · unfold delete
    split
    · split <;> simp
    · simp
  · unfold createOrUpdateTykOASAPI
    dsimp only
    split
    · simp
    · split
      · simp
      · split
        · simp
        · split <;> split <;> simp

/-- The `CreateOrUpdate` step never reloads the gateway. -/
theorem CreateOrUpdate_no_reload (D : Deps) (W : World) (o : TykOasApiDefinition) :
    ∀ c ∈ (CreateOrUpdate D W o).calls, c ≠ RemoteCall.HotReload := by
  rcases CreateOrUpdate_cases D W o with ⟨err, hs⟩ | ⟨-, -, -, hcalls, -⟩
  · rw [hs]
    simp
  · rw [hcalls]
    exact mutateFn_no_reload D W o

/-! ## Finalizer safety -/

/-- Claim C2: for a resource with a non-empty status ID whose deletion is
requested, a pass changes the finalizers (in memory or in any cluster write)
only if the remote `Delete` of that ID was issued and returned no error; when
that `Delete` returns an error, `delete` returns that error, leaves the object
untouched, and the pass leaves the finalizers exactly as they were. -/
theorem finalizer_safety (D : Deps) (W : World) (req : NamespacedName)
    (o : TykOasApiDefinition) (hGet : W.Get req = .ok o)
    (hDel : IsZero o.DeletionTimestamp = false) (hID : o.Status.ID ≠ "") :
    (((Reconcile D W req).tykOAS.Finalizers ≠ o.Finalizers
        ∨ ∃ w ∈ (Reconcile D W req).writes, w.obj.Finalizers ≠ o.Finalizers) →
      W.Delete o.Status.ID = none
        ∧ RemoteCall.Delete o.Status.ID ∈ (Reconcile D W req).calls)
    ∧ (∀ e, W.Delete o.Status.ID = some e →
        (delete D W o).err = some e ∧ (delete D W o).obj = o
        ∧ (Reconcile D W req).tykOAS.Finalizers = o.Finalizers
        ∧ ∀ w ∈ (Reconcile D W req).writes, w.obj.Finalizers = o.Finalizers) := by
  have key : ((Reconcile D W req).tykOAS.Finalizers ≠ o.Finalizers
        ∨ ∃ w ∈ (Reconcile D W req).writes, w.obj.Finalizers ≠ o.Finalizers) →
      W.Delete o.Status.ID = none
        ∧ RemoteCall.Delete o.Status.ID ∈ (Reconcile D W req).calls := by
    cases hCtx : W.HttpContext with
    | some e =>
      rw [Reconcile_no_context D W req o hGet e hCtx]
      simp
    | none =>
      rw [Reconcile_loaded D W req o hGet hCtx]
      rcases CreateOrUpdate_cases D W o with ⟨err, hs⟩ | ⟨hobj, -, hmark, hcalls, herr, hw⟩
      · have hl := finish_live D W (CreateOrUpdate D W o) (by rw [hs])
        obtain ⟨-, hobj, hwr, -⟩ := hl
        have hfin : (finish D W (CreateOrUpdate D W o)).tykOAS.Finalizers = o.Finalizers := by
          rw [hobj, statusOf_Finalizers, hs]
        have hwr0 : (CreateOrUpdate D W o).writes = [] := by rw [hs]
        intro h
        rcases h with h | ⟨w, hw, hne⟩
        · exact absurd hfin h
        · rw [hwr, hwr0] at hw
          simp only [List.nil_append, List.mem_singleton] at hw
          subst hw
          exact absurd hfin hne
      · rw [mutateFn_deleting D W o hDel] at hobj hmark hcalls herr hw
        simp only at hobj hmark hcalls herr hw
        rw [finish_deleting D W _ hmark]
        obtain ⟨-, ho, hc, hwr⟩ := reload_fields W 0 (CreateOrUpdate D W o).err
          (CreateOrUpdate D W o).obj (CreateOrUpdate D W o).calls (CreateOrUpdate D W o).writes
        rw [ho, hc, hwr, hobj, hcalls]
        obtain ⟨hfail, hok⟩ := delete_with_ID D W o hID
        cases hd : W.Delete o.Status.ID with
        | none =>
          intro _
          rw [hok hd]
          simp
        | some e =>
          intro h
          have hwe := (herr e (by rw [hfail e hd])).2
          rw [hwe, hfail e hd] at h
          simp at h
  refine ⟨key, ?_⟩
  intro e he
  obtain ⟨hfail, -⟩ := delete_with_ID D W o hID
  refine ⟨by rw [hfail e he], by rw [hfail e he], ?_, ?_⟩
  · by_contra hne
    have := (key (Or.inl hne)).1
    rw [he] at this
    cases this
  · intro w hw
    by_contra hne
    have := (key (Or.inr ⟨w, hw, hne⟩)).1
    rw [he] at this
    cases this

/-- Claim C2 at a concrete input: the synced resource under deletion, with a
remote `Delete` that fails. -/
theorem finalizer_safety_witness :
    worldDeleteFails.Get petstoreReq = .ok petstoreDeleting
    ∧ IsZero petstoreDeleting.DeletionTimestamp = false
    ∧ petstoreDeleting.Status.ID ≠ ""
    ∧ (delete sampleDeps worldDeleteFails petstoreDeleting).err
        = some (.other "gateway unreachable")
    ∧ (Reconcile sampleDeps worldDeleteFails petstoreReq).tykOAS.Finalizers
        = ["finalizers.tyk.io/tykoas"] :=
  have h := finalizer_safety sampleDeps worldDeleteFails petstoreReq petstoreDeleting
    rfl (by decide) (by decide)
  ⟨rfl, by decide, by decide, (h.2 _ rfl).1, (h.2 _ rfl).2.2.1⟩

/-! ## Create or update -/

/-- Claim C3, as stated, fails: the document of `petstore` is readable and has
the extension section, yet its embedded ID is a number, so the sync returns
the lookup error before any remote call: no existence check, no create, no
update. -/
theorem createOrUpdate_numeric_id_no_call :
    worldNumericID.cmGetSync ⟨"default", "petstore-cm"⟩
        = .ok ⟨[("oas.json", docNumericID)]⟩
      ∧ sampleDeps.Get docNumericID [TykOASExtenstionStr] = none
      ∧ IsZero petstore.DeletionTimestamp = true
      ∧ createOrUpdateTykOASAPI sampleDeps worldNumericID petstore
        = ⟨"", some (.other "Value is not a string: 5"), []⟩ := by
  decide

/-- Claim C3, amended: when the backing document is readable, has the
extension section and identity resolution does not fail, the sync checks
remote existence of the resolved ID and then issues exactly one more remote
call, `Create` when the object is absent and `Update` when it is present, with
the resolved ID and the document as read; its error is the error of that call,
and on success it returns the resolved ID. -/
theorem createOrUpdate_one_call (D : Deps) (W : World) (o : TykOasApiDefinition)
    (cm : ConfigMap) (id : String)
    (hcm : W.cmGetSync ⟨o.ConfigmapRef.Namespace, o.ConfigmapRef.Name⟩ = .ok cm)
    (hsec : D.Get (cm.get o.ConfigmapRef.KeyName) [TykOASExtenstionStr] = none)
    (hid : resolveAPIID D o (cm.get o.ConfigmapRef.KeyName) = .ok id) :
    (createOrUpdateTykOASAPI D W o).calls =
        [.Exists id,
          if W.Exists id then .Update id (cm.get o.ConfigmapRef.KeyName)
          else .Create id (cm.get o.ConfigmapRef.KeyName)]
    ∧ (createOrUpdateTykOASAPI D W o).err =
        (if W.Exists id then W.Update id (cm.get o.ConfigmapRef.KeyName)
          else W.Create id (cm.get o.ConfigmapRef.KeyName))
    ∧ ((createOrUpdateTykOASAPI D W o).err = none →
        (createOrUpdateTykOASAPI D W o).apiID = id) := by
  unfold createOrUpdateTykOASAPI
  simp only [hcm, hsec, hid]
  cases hex : W.Exists id with
  | false =>
    cases hc : W.Create id (cm.get o.ConfigmapRef.KeyName) <;> simp [hc]
  | true =>
    cases hu : W.Update id (cm.get o.ConfigmapRef.KeyName) <;> simp [hu]

/-- Claim C3 at a concrete input: the fresh resource `petstore` with a
document embedding the ID `abc123`, absent on the remote side, is created. -/
theorem createOrUpdate_one_call_witness :
    (createOrUpdateTykOASAPI sampleDeps (sampleWorld petstore docWithID) petstore).calls
        = [.Exists "abc123", .Create "abc123" docWithID]
    ∧ (createOrUpdateTykOASAPI sampleDeps (sampleWorld petstore docWithID) petstore).apiID
        = "abc123" :=
  have h := createOrUpdate_one_call sampleDeps (sampleWorld petstore docWithID) petstore
    ⟨[("oas.json", docWithID)]⟩ "abc123" rfl (by decide) (by decide)
  ⟨h.1, h.2.2 (by decide)⟩

/-! ## Immutability of the status ID -/

/-- Claim C4: a non-empty status ID survives a pass unchanged, in memory and
in every cluster write, whatever the payload and the outcome of the sync;
`updateStatus` keeps a non-empty status ID whatever ID it is handed; a pass
that changes the status ID started from an empty one. -/
theorem status_ID_immutable (D : Deps) (W : World) (req : NamespacedName)
    (o : TykOasApiDefinition) (hGet : W.Get req = .ok o) :
    (o.Status.ID ≠ "" →
        (Reconcile D W req).tykOAS.Status.ID = o.Status.ID
        ∧ ∀ w ∈ (Reconcile D W req).writes, w.obj.Status.ID = o.Status.ID)
    ∧ (∀ (c : TykOasApiDefinition) (apiID : String), c.Status.ID ≠ "" →
        (updateStatus D W c apiID).1.Status.ID = c.Status.ID)
    ∧ ((Reconcile D W req).tykOAS.Status.ID ≠ o.Status.ID → o.Status.ID = "") := by
  have hupd : ∀ (c : TykOasApiDefinition) (apiID : String), c.Status.ID ≠ "" →
      (updateStatus D W c apiID).1.Status.ID = c.Status.ID := by
    intro c apiID hc
    simp [updateStatus, statusOf_ID, hc]
  have key : o.Status.ID ≠ "" →
      (Reconcile D W req).tykOAS.Status.ID = o.Status.ID
      ∧ ∀ w ∈ (Reconcile D W req).writes, w.obj.Status.ID = o.Status.ID := by
    intro hID
    cases hCtx : W.HttpContext with
    | some e =>
      rw [Reconcile_no_context D W req o hGet e hCtx]
      simp
    | none =>
      rw [Reconcile_loaded D W req o hGet hCtx]
      have hso : (CreateOrUpdate D W o).obj.Status = o.Status := by
        rw [CreateOrUpdate_obj D W o]
      have hsw := CreateOrUpdate_writes D W o
      cases hmark : (CreateOrUpdate D W o).markForDeletion with
      | true =>
        rw [finish_deleting D W _ hmark]
        obtain ⟨-, ho, -, hwr⟩ := reload_fields W 0 (CreateOrUpdate D W o).err
          (CreateOrUpdate D W o).obj (CreateOrUpdate D W o).calls (CreateOrUpdate D W o).writes
        rw [ho, hwr, hso]
        refine ⟨rfl, ?_⟩
        intro w hw
        rw [hsw w hw, hso]
      | false =>
        obtain ⟨-, ho, hwr, -⟩ := finish_live D W (CreateOrUpdate D W o) hmark
        have hfin : (finish D W (CreateOrUpdate D W o)).tykOAS.Status.ID = o.Status.ID := by
          rw [ho, statusOf_ID]
          simp [hso, hID]
        refine ⟨hfin, ?_⟩
        intro w hw
        rw [hwr] at hw
        rcases List.mem_append.mp hw with hw | hw
        · rw [hsw w hw, hso]
        · simp only [List.mem_singleton] at hw
          subst hw
          exact hfin
  refine ⟨key, hupd, ?_⟩
  intro hne
  by_contra hID
  exact hne (key hID).1

/-- Claim C4 at a concrete input: the synced resource under deletion keeps the
ID `abc123` through a pass whose remote `Delete` fails. -/
theorem status_ID_immutable_witness :
    worldDeleteFails.Get petstoreReq = .ok petstoreDeleting
    ∧ (Reconcile sampleDeps worldDeleteFails petstoreReq).tykOAS.Status.ID = "abc123"
    ∧ (updateStatus sampleDeps worldDeleteFails petstoreDeleting "other-id").1.Status.ID
        = "abc123" :=
  have h := status_ID_immutable sampleDeps worldDeleteFails petstoreReq petstoreDeleting rfl
  ⟨rfl, (h.1 (by decide)).1, h.2.1 petstoreDeleting "other-id" (by decide)⟩

/-! ## Validation failure -/

/-- Claim C5: when the document read from the config map lacks the
`x-tyk-api-gateway` section, `createOrUpdateTykOASAPI` returns an error and an
empty ID and issues no remote call at all; the pass that runs it leaves a
`Failed` transaction with a non-empty error text on the object, hands it to the
status write, and issues no remote `Exists`, `Create` or `Update` (its only
possible remote call is the reload).  The reporter's own config-map read may
succeed or fail, as long as a failure carries a text. -/
theorem validation_failure (D : Deps) (W : World) (req : NamespacedName)
    (o : TykOasApiDefinition) (cm : ConfigMap) (e : GoError)
    (hGet : W.Get req = .ok o) (hCtx : W.HttpContext = none)
    (hLive : IsZero o.DeletionTimestamp = true)
    (hReach : ∀ err, W.couGet (ObjectKeyFromObject o) = some err → err.IsNotFound = true)
    (hcm : W.cmGetSync ⟨o.ConfigmapRef.Namespace, o.ConfigmapRef.Name⟩ = .ok cm)
    (hsec : D.Get (cm.get o.ConfigmapRef.KeyName) [TykOASExtenstionStr] = some e)
    (hS : ∀ e2, W.cmGetStatus ⟨o.ConfigmapRef.Namespace, o.ConfigmapRef.Name⟩ = .error e2 →
      e2.Error ≠ "") :
    (createOrUpdateTykOASAPI D W o).apiID = ""
    ∧ (createOrUpdateTykOASAPI D W o).err = some (.other (errMsg ++ ": " ++ e.Error))
    ∧ (createOrUpdateTykOASAPI D W o).calls = []
    ∧ (Reconcile D W req).tykOAS.Status.LatestTransaction.Status = Failed
    ∧ (Reconcile D W req).tykOAS.Status.LatestTransaction.Error ≠ ""
    ∧ ClusterWrite.StatusUpdate (Reconcile D W req).tykOAS ∈ (Reconcile D W req).writes
    ∧ ∀ c ∈ (Reconcile D W req).calls, c = RemoteCall.HotReload := by
  have hv := createOrUpdate_validation D W o cm e hcm hsec
  have hv2 := createOrUpdate_validation D W (AddFinalizer o D.TykOASFinalizerName) cm e
    (by rw [AddFinalizer_ConfigmapRef]; exact hcm)
    (by rw [AddFinalizer_ConfigmapRef]; exact hsec)
  obtain ⟨-, -, -, hcalls, herr, -⟩ := CreateOrUpdate_reached D W o hReach
  rw [mutateFn_live D W o hLive, hv2] at hcalls herr
  simp only at hcalls herr
  have hserr := (herr _ rfl).1
  obtain ⟨-, hlt, hw, hc⟩ := Reconcile_live D W req o hGet hCtx hLive
  rw [hserr] at hlt
  refine ⟨by rw [hv], by rw [hv], by rw [hv], ?_, ?_, ?_, ?_⟩
  · rw [hlt]
    split <;> rfl
  · rw [hlt]
    cases hst : W.cmGetStatus ⟨o.ConfigmapRef.Namespace, o.ConfigmapRef.Name⟩ with
    | ok c => exact validation_text_ne e
    | error e2 => exact hS e2 hst
  · rw [hw]
    simp
  · intro c hmem
    rcases hc with hc | hc <;> rw [hc, hcalls] at hmem <;> simp at hmem
    exact hmem

/-- Claim C5 at a concrete input: the fresh resource `petstore` whose document
is `{"openapi":"3.0.3"}`. -/
theorem validation_failure_witness :
    sampleDeps.Get docNoSection [TykOASExtenstionStr] = some .KeyPathNotFoundError
    ∧ (createOrUpdateTykOASAPI sampleDeps worldNoSection petstore).calls = []
    ∧ (Reconcile sampleDeps worldNoSection petstoreReq).tykOAS.Status.LatestTransaction.Status
        = "Failed"
    ∧ (Reconcile sampleDeps worldNoSection petstoreReq).tykOAS.Status.LatestTransaction.Error
        ≠ "" :=
  have h := validation_failure sampleDeps worldNoSection petstoreReq petstore
    ⟨[("oas.json", docNoSection)]⟩ .KeyPathNotFoundError rfl rfl (by decide)
    (by intro err he; cases he) rfl (by decide) (by intro e2 he; cases he)
  ⟨by decide, h.2.2.1, h.2.2.2.1, h.2.2.2.2.1⟩

/-! ## Outcome and requeue -/

/-- Claim C6, as stated, fails: the sync of `petstore` succeeds (the sync
function and the whole `CreateOrUpdate` step return no error), the config map
is gone when the reporter reads it, and the pass leaves a `Failed` transaction
carrying the read error, not a `Successful` one. -/
theorem sync_ok_recorded_failed :
    (createOrUpdateTykOASAPI sampleDeps worldStatusReadFails
        (AddFinalizer petstore sampleDeps.TykOASFinalizerName)).err = none
      ∧ (CreateOrUpdate sampleDeps worldStatusReadFails petstore).err = none
      ∧ (Reconcile sampleDeps worldStatusReadFails petstoreReq).tykOAS.Status.LatestTransaction
        = ⟨11, "Failed", "configmaps \"petstore-cm\" not found"⟩
      ∧ (Reconcile sampleDeps worldStatusReadFails petstoreReq).result.RequeueAfter = 0 := by
  decide

/-- Claim C6, amended: in a pass on a resource whose deletion is not
requested, with the sync step being the `CreateOrUpdate` call that runs
`createOrUpdateTykOASAPI`: if the step returns an error the requeue delay is
`queueAfter`, and the transaction left is `Failed` with that error's text
provided the reporter's own config-map read succeeds; if the step returns no
error the requeue delay is zero, and the transaction left is `Successful` with
no error text under the same proviso; when the reporter's read fails the
transaction left is `Failed` with the read error's text; an error of
`createOrUpdateTykOASAPI` is the error of the step; the object is handed to the
status write. -/
theorem outcome_and_requeue (D : Deps) (W : World) (req : NamespacedName)
    (o : TykOasApiDefinition) (hGet : W.Get req = .ok o) (hCtx : W.HttpContext = none)
    (hLive : IsZero o.DeletionTimestamp = true) :
    (∀ e, (CreateOrUpdate D W o).err = some e →
        (Reconcile D W req).result.RequeueAfter = D.queueAfter
        ∧ ((∃ cm, W.cmGetStatus ⟨o.ConfigmapRef.Namespace, o.ConfigmapRef.Name⟩ = .ok cm) →
            (Reconcile D W req).tykOAS.Status.LatestTransaction.Status = Failed
            ∧ (Reconcile D W req).tykOAS.Status.LatestTransaction.Error = e.Error))
    ∧ ((CreateOrUpdate D W o).err = none →
        (Reconcile D W req).result.RequeueAfter = 0
        ∧ ((∃ cm, W.cmGetStatus ⟨o.ConfigmapRef.Namespace, o.ConfigmapRef.Name⟩ = .ok cm) →
            (Reconcile D W req).tykOAS.Status.LatestTransaction.Status = Successful
            ∧ (Reconcile D W req).tykOAS.Status.LatestTransaction.Error = ""))
    ∧ (∀ e2, W.cmGetStatus ⟨o.ConfigmapRef.Namespace, o.ConfigmapRef.Name⟩ = .error e2 →
        (Reconcile D W req).tykOAS.Status.LatestTransaction.Status = Failed
        ∧ (Reconcile D W req).tykOAS.Status.LatestTransaction.Error = e2.Error)
    ∧ (∀ e, (∀ err, W.couGet (ObjectKeyFromObject o) = some err → err.IsNotFound = true) →
        (createOrUpdateTykOASAPI D W (AddFinalizer o D.TykOASFinalizerName)).err = some e →
        (CreateOrUpdate D W o).err = some e)
    ∧ ClusterWrite.StatusUpdate (Reconcile D W req).tykOAS ∈ (Reconcile D W req).writes := by
  obtain ⟨hr, hlt, hw, -⟩ := Reconcile_live D W req o hGet hCtx hLive
  refine ⟨?_, ?_, ?_, ?_, ?_⟩
  · intro e he
    refine ⟨by rw [hr, he]; simp, ?_⟩
    rintro ⟨cm, hcm⟩
    rw [hlt, hcm, he]
    exact ⟨rfl, rfl⟩
  · intro he
    refine ⟨by rw [hr, he]; simp, ?_⟩
    rintro ⟨cm, hcm⟩
    rw [hlt, hcm, he]
    exact ⟨rfl, rfl⟩
  · intro e2 he2
    rw [hlt, he2]
    exact ⟨rfl, rfl⟩
  · intro e hReach he
    obtain ⟨-, -, -, -, herr, -⟩ := CreateOrUpdate_reached D W o hReach
    exact (herr e (by rw [mutateFn_live D W o hLive]; exact he)).1
  · rw [hw]
    simp

/-- Claim C6 at a concrete input: the pass on `petstore` whose document lacks
the extension section fails its sync and is requeued after `queueAfter`. -/
theorem outcome_and_requeue_witness :
    worldNoSection.Get petstoreReq = .ok petstore
    ∧ worldNoSection.HttpContext = none
    ∧ IsZero petstore.DeletionTimestamp = true
    ∧ (Reconcile sampleDeps worldNoSection petstoreReq).result.RequeueAfter = 3000000000
    ∧ (Reconcile sampleDeps worldNoSection petstoreReq).tykOAS.Status.LatestTransaction.Status
        = "Failed" :=
  have h := outcome_and_requeue sampleDeps worldNoSection petstoreReq petstore rfl rfl
    (by decide)
  have he : (CreateOrUpdate sampleDeps worldNoSection petstore).err
      = some (.other (errMsg ++ ": " ++ GoError.KeyPathNotFoundError.Error)) := by decide
  ⟨rfl, rfl, by decide, (h.1 _ he).1, ((h.1 _ he).2 ⟨_, rfl⟩).1⟩

/-! ## Not found on delete -/

/-- The mock dashboard's policy `Delete` returns a request error as it is,
nothing for a 200 response, and whatever `client.Error` makes of any other
response. -/
theorem mockSecurityPolicy_Delete_cases (C : HttpClient) (id : String) :
    (∀ e, C.Delete (C.Join [C.endpointPolicies, id]) = .error e →
        mockSecurityPolicy.Delete C id = some e)
    ∧ (∀ res, C.Delete (C.Join [C.endpointPolicies, id]) = .ok res →
        res.StatusCode = StatusOK → mockSecurityPolicy.Delete C id = none)
    ∧ (∀ res, C.Delete (C.Join [C.endpointPolicies, id]) = .ok res →
        res.StatusCode ≠ StatusOK → mockSecurityPolicy.Delete C id = C.Error res) := by
  refine ⟨?_, ?_, ?_⟩
  · intro e h
    simp [mockSecurityPolicy.Delete, h]
  · intro res h hc
    simp [mockSecurityPolicy.Delete, h, hc]
  · intro res h hc
    simp [mockSecurityPolicy.Delete, h, hc]

/-- The closure leaves the object key alone. -/
theorem mutateFn_key (D : Deps) (W : World) (o : TykOasApiDefinition) :
    ObjectKeyFromObject (mutateFn D W o).obj = ObjectKeyFromObject o := by
  rw [mutateFn_obj D W o]
  rfl

/-- When the closure succeeds, the error of the `CreateOrUpdate` step is the
error of its cluster write, if it writes at all. -/
theorem CreateOrUpdate_err_of_ok (D : Deps) (W : World) (o : TykOasApiDefinition)
    (hReach : ∀ err, W.couGet (ObjectKeyFromObject o) = some err → err.IsNotFound = true)
    (hm : (mutateFn D W o).err = none) :
    (CreateOrUpdate D W o).err = none
    ∨ (CreateOrUpdate D W o).err = W.couUpdate (mutateFn D W o).obj
    ∨ (CreateOrUpdate D W o).err = W.couCreate (mutateFn D W o).obj := by
  have hk := mutateFn_key D W o
  unfold CreateOrUpdate
  dsimp only
  cases hg : W.couGet (ObjectKeyFromObject o) with
  | some err =>
    have hnf := hReach err hg
    simp [hnf, hm, hk]
  | none =>
    by_cases he : (mutateFn D W o).obj = o
    · simp [hm, hk, he]
    · simp [hm, hk, he]

/-- Claim C7: when the remote system answers the delete of the status ID with
"not found", the remote `Delete` returns no error; `delete` then calls it once,
returns no error and removes the finalizer; the pass that runs it ends with
the finalizer gone from the object, and the error it returns is the reload
error if the reload fails and else the error of the cluster write of the
object, if any: no deletion error is reported. -/
theorem not_found_delete_is_success (D : Deps) (W : World) (req : NamespacedName)
    (o : TykOasApiDefinition) (remote : String → DeleteAnswer)
    (hGet : W.Get req = .ok o) (hCtx : W.HttpContext = none)
    (hReach : ∀ err, W.couGet (ObjectKeyFromObject o) = some err → err.IsNotFound = true)
    (hDel : IsZero o.DeletionTimestamp = false) (hID : o.Status.ID ≠ "")
    (hRemote : W.Delete o.Status.ID = TykOAS.Delete remote o.Status.ID)
    (hNF : remote o.Status.ID = .notFound) :
    TykOAS.Delete remote o.Status.ID = none
    ∧ (delete D W o).err = none
    ∧ (delete D W o).calls = [.Delete o.Status.ID]
    ∧ (delete D W o).obj.Finalizers
        = o.Finalizers.filter (fun f => f != D.TykOASFinalizerName)
    ∧ D.TykOASFinalizerName ∉ (Reconcile D W req).tykOAS.Finalizers
    ∧ RemoteCall.Delete o.Status.ID ∈ (Reconcile D W req).calls
    ∧ (Reconcile D W req).err =
        (match W.HotReload with
          | some r => some r
          | none => (CreateOrUpdate D W o).err)
    ∧ ((CreateOrUpdate D W o).err = none
        ∨ (CreateOrUpdate D W o).err
            = W.couUpdate (RemoveFinalizer o D.TykOASFinalizerName)
        ∨ (CreateOrUpdate D W o).err
            = W.couCreate (RemoveFinalizer o D.TykOASFinalizerName)) := by
  have hnone : TykOAS.Delete remote o.Status.ID = none := by
    simp [TykOAS.Delete, hNF]
  have hd := (delete_with_ID D W o hID).2 (by rw [hRemote, hnone])
  have hm : mutateFn D W o
      = ⟨RemoveFinalizer o D.TykOASFinalizerName, none, "", true, [.Delete o.Status.ID]⟩ := by
    rw [mutateFn_deleting D W o hDel, hd]
  obtain ⟨hobj, -, hmark, hcalls, -, -⟩ := CreateOrUpdate_reached D W o hReach
  rw [hm] at hobj hmark hcalls
  simp only at hobj hmark hcalls
  have hstep := CreateOrUpdate_err_of_ok D W o hReach (by rw [hm])
  rw [hm] at hstep
  simp only at hstep
  obtain ⟨-, ho, hc, -⟩ := reload_fields W 0 (CreateOrUpdate D W o).err
    (CreateOrUpdate D W o).obj (CreateOrUpdate D W o).calls (CreateOrUpdate D W o).writes
  rw [Reconcile_loaded D W req o hGet hCtx, finish_deleting D W _ hmark, ho, hc, hobj,
    hcalls, reload_err]
  refine ⟨hnone, by rw [hd], by rw [hd], by rw [hd]; rfl, ?_, ?_, rfl, hstep⟩
  · simp [RemoveFinalizer]
  · simp

/-- Claim C7 at a concrete input: the synced resource under deletion, against
a remote system that no longer has the object `abc123`: the finalizer is
removed and the pass returns no error. -/
theorem not_found_delete_is_success_witness :
    worldRemoteGone.Get petstoreReq = .ok petstoreDeleting
    ∧ IsZero petstoreDeleting.DeletionTimestamp = false
    ∧ petstoreDeleting.Status.ID ≠ ""
    ∧ (delete sampleDeps worldRemoteGone petstoreDeleting).err = none
    ∧ (Reconcile sampleDeps worldRemoteGone petstoreReq).calls
        = [.Delete "abc123", .HotReload]
    ∧ (Reconcile sampleDeps worldRemoteGone petstoreReq).tykOAS.Finalizers = []
    ∧ (Reconcile sampleDeps worldRemoteGone petstoreReq).err = none
    ∧ "finalizers.tyk.io/tykoas"
        ∉ (Reconcile sampleDeps worldRemoteGone petstoreReq).tykOAS.Finalizers :=
  have h := not_found_delete_is_success sampleDeps worldRemoteGone petstoreReq
    petstoreDeleting (fun _ => .notFound) rfl rfl (by intro err he; cases he)
    (by decide) (by decide) rfl rfl
  ⟨rfl, by decide, by decide, h.2.1, by decide, by decide, by decide, h.2.2.2.2.1⟩

/-! ## Requeue after a validation error -/

/-- Claim C8, as stated, fails: the pass on `petstore` whose document lacks the
extension section fails its sync with the validation error and returns a
requeue delay of `queueAfter` (three seconds here), not zero. -/
theorem validation_error_requeued_on_timer :
    sampleDeps.Get docNoSection [TykOASExtenstionStr] = some .KeyPathNotFoundError
      ∧ (createOrUpdateTykOASAPI sampleDeps worldNoSection
          (AddFinalizer petstore sampleDeps.TykOASFinalizerName)).err
        = some (.other (errMsg ++ ": Key path not found"))
      ∧ (Reconcile sampleDeps worldNoSection petstoreReq).result.RequeueAfter = 3000000000
      ∧ (Reconcile sampleDeps worldNoSection petstoreReq).result.RequeueAfter ≠ 0 := by
  decide

/-- Claim C8, amended: a validation error is retried on the fixed timer like
every other error of the sync step.  In a pass on a resource whose deletion is
not requested the requeue delay is `queueAfter` when the `CreateOrUpdate` step
returns an error and zero otherwise, whatever the kind of error; in particular
it is `queueAfter` when the sync fails because the document lacks the
extension section. -/
theorem validation_requeue (D : Deps) (W : World) (req : NamespacedName)
    (o : TykOasApiDefinition) (hGet : W.Get req = .ok o) (hCtx : W.HttpContext = none)
    (hLive : IsZero o.DeletionTimestamp = true) :
    (Reconcile D W req).result.RequeueAfter
        = (if (CreateOrUpdate D W o).err.isSome then D.queueAfter else 0)
    ∧ (∀ (cm : ConfigMap) (e : GoError),
        (∀ err, W.couGet (ObjectKeyFromObject o) = some err → err.IsNotFound = true) →
        W.cmGetSync ⟨o.ConfigmapRef.Namespace, o.ConfigmapRef.Name⟩ = .ok cm →
        D.Get (cm.get o.ConfigmapRef.KeyName) [TykOASExtenstionStr] = some e →
        (Reconcile D W req).result.RequeueAfter = D.queueAfter) := by
  obtain ⟨hr, -⟩ := Reconcile_live D W req o hGet hCtx hLive
  refine ⟨by rw [hr], ?_⟩
  intro cm e hReach hcm hsec
  have hv := createOrUpdate_validation D W (AddFinalizer o D.TykOASFinalizerName) cm e
    (by rw [AddFinalizer_ConfigmapRef]; exact hcm)
    (by rw [AddFinalizer_ConfigmapRef]; exact hsec)
  obtain ⟨-, -, -, -, herr, -⟩ := CreateOrUpdate_reached D W o hReach
  rw [mutateFn_live D W o hLive, hv] at herr
  rw [hr, (herr _ rfl).1]
  rfl

/-- Claim C8 at a concrete input: the pass on `petstore` whose document is
`{"openapi":"3.0.3"}`. -/
theorem validation_requeue_witness :
    worldNoSection.Get petstoreReq = .ok petstore
    ∧ worldNoSection.HttpContext = none
    ∧ IsZero petstore.DeletionTimestamp = true
    ∧ (Reconcile sampleDeps worldNoSection petstoreReq).result.RequeueAfter
        = sampleDeps.queueAfter :=
  have h := validation_requeue sampleDeps worldNoSection petstoreReq petstore rfl rfl
    (by decide)
  ⟨rfl, rfl, by decide,
    h.2 ⟨[("oas.json", docNoSection)]⟩ .KeyPathNotFoundError
      (by intro err he; cases he) rfl (by decide)⟩

/-! ## Recording of errors -/

/-- Claim C9, as stated, fails: in the pass on `petstoreDeleting` the remote
`Delete` fails, the pass returns that error, and the transaction on the object
is still the earlier `Successful` one; nothing is written to the cluster. -/
theorem delete_error_not_recorded :
    worldDeleteFails.Delete petstoreDeleting.Status.ID = some (.other "gateway unreachable")
      ∧ (Reconcile sampleDeps worldDeleteFails petstoreReq).err
        = some (.other "gateway unreachable")
      ∧ (Reconcile sampleDeps worldDeleteFails petstoreReq).tykOAS.Status.LatestTransaction
        = ⟨5, "Successful", ""⟩
      ∧ (Reconcile sampleDeps worldDeleteFails petstoreReq).writes = [] := by
  decide

/-- Claim C9, amended: in a pass that reaches the closure, (1) on a resource
whose deletion is not requested, an error of `createOrUpdateTykOASAPI` (from
the config-map read, the validation, the ID lookup, `Create` or `Update`)
leaves a `Failed` transaction on the object, handed to the status write, and
that transaction carries the error's text provided the reporter's own
config-map read succeeds; (2) on a resource whose deletion is requested the
transaction is left untouched, in memory and in every cluster write; an error
of `delete` is recorded nowhere (the pass writes nothing to the cluster); the
pass returns it as its error when the reload that follows succeeds, and
returns the reload error in its place when the reload fails too. -/
theorem errors_recorded (D : Deps) (W : World) (req : NamespacedName)
    (o : TykOasApiDefinition) (hGet : W.Get req = .ok o) (hCtx : W.HttpContext = none)
    (hReach : ∀ err, W.couGet (ObjectKeyFromObject o) = some err → err.IsNotFound = true) :
    (IsZero o.DeletionTimestamp = true →
      ∀ e, (createOrUpdateTykOASAPI D W (AddFinalizer o D.TykOASFinalizerName)).err = some e →
        (Reconcile D W req).tykOAS.Status.LatestTransaction.Status = Failed
        ∧ ((∃ cm, W.cmGetStatus ⟨o.ConfigmapRef.Namespace, o.ConfigmapRef.Name⟩ = .ok cm) →
            (Reconcile D W req).tykOAS.Status.LatestTransaction.Error = e.Error)
        ∧ ClusterWrite.StatusUpdate (Reconcile D W req).tykOAS ∈ (Reconcile D W req).writes)
    ∧ (IsZero o.DeletionTimestamp = false →
        (Reconcile D W req).tykOAS.Status.LatestTransaction = o.Status.LatestTransaction
        ∧ (∀ w ∈ (Reconcile D W req).writes,
            w.obj.Status.LatestTransaction = o.Status.LatestTransaction)
        ∧ ∀ e, (delete D W o).err = some e →
            (Reconcile D W req).writes = []
            ∧ (W.HotReload = none → (Reconcile D W req).err = some e)
            ∧ (∀ r, W.HotReload = some r → (Reconcile D W req).err = some r)) := by
  obtain ⟨hobj, -, hmark, -, herr, -⟩ := CreateOrUpdate_reached D W o hReach
  constructor
  · intro hLive e he
    obtain ⟨-, hlt, hw, -⟩ := Reconcile_live D W req o hGet hCtx hLive
    have hs : (CreateOrUpdate D W o).err = some e :=
      (herr e (by rw [mutateFn_live D W o hLive]; exact he)).1
    rw [hs] at hlt
    refine ⟨?_, ?_, ?_⟩
    · rw [hlt]
      split <;> rfl
    · rintro ⟨cm, hcm⟩
      rw [hlt, hcm]
    · rw [hw]
      simp
  · intro hDel
    rw [mutateFn_deleting D W o hDel] at hmark herr
    simp only at hmark herr
    rw [Reconcile_loaded D W req o hGet hCtx, finish_deleting D W _ hmark]
    obtain ⟨-, ho, -, hwr⟩ := reload_fields W 0 (CreateOrUpdate D W o).err
      (CreateOrUpdate D W o).obj (CreateOrUpdate D W o).calls (CreateOrUpdate D W o).writes
    have hso : (CreateOrUpdate D W o).obj.Status = o.Status := by
      rw [CreateOrUpdate_obj D W o]
    refine ⟨by rw [ho, hso], ?_, ?_⟩
    · intro w hw
      rw [hwr] at hw
      rw [CreateOrUpdate_writes D W o w hw, hso]
    · intro e he
      refine ⟨by rw [hwr]; exact (herr e he).2, ?_, ?_⟩
      · intro hrel
        rw [reload_err, hrel]
        exact (herr e he).1
      · intro r hrel
        rw [reload_err, hrel]

/-- Claim C9 at concrete inputs: the failed sync of `petstore` (document
without the extension section) is recorded as `Failed`; the failed remote
`Delete` of `petstoreDeleting`, followed by a failed reload, is recorded
nowhere and the pass returns the reload error. -/
theorem errors_recorded_witness :
    worldNoSection.Get petstoreReq = .ok petstore
    ∧ worldNoSection.HttpContext = none
    ∧ (Reconcile sampleDeps worldNoSection petstoreReq).tykOAS.Status.LatestTransaction.Status
        = "Failed"
    ∧ (Reconcile sampleDeps worldNoSection petstoreReq).tykOAS.Status.LatestTransaction.Error
        = errMsg ++ ": Key path not found"
    ∧ (delete sampleDeps worldDeleteAndReloadFail petstoreDeleting).err
        = some (.other "gateway unreachable")
    ∧ (Reconcile sampleDeps worldDeleteAndReloadFail petstoreReq).tykOAS.Status.LatestTransaction
        = ⟨5, "Successful", ""⟩
    ∧ (Reconcile sampleDeps worldDeleteAndReloadFail petstoreReq).writes = []
    ∧ (Reconcile sampleDeps worldDeleteAndReloadFail petstoreReq).err
        = some (.other "reload failed") :=
  have h := errors_recorded sampleDeps worldNoSection petstoreReq petstore rfl rfl
    (by intro err he; cases he)
  have he : (createOrUpdateTykOASAPI sampleDeps worldNoSection
      (AddFinalizer petstore sampleDeps.TykOASFinalizerName)).err
      = some (.other (errMsg ++ ": Key path not found")) := by decide
  have h2 := errors_recorded sampleDeps worldDeleteAndReloadFail petstoreReq
    petstoreDeleting rfl rfl (by intro err he; cases he)
  have hd : (delete sampleDeps worldDeleteAndReloadFail petstoreDeleting).err
      = some (.other "gateway unreachable") := by decide
  ⟨rfl, rfl, (h.1 (by decide) _ he).1, (h.1 (by decide) _ he).2.1 ⟨_, rfl⟩, hd,
    (h2.2 (by decide)).1, ((h2.2 (by decide)).2.2 _ hd).1,
    ((h2.2 (by decide)).2.2 _ hd).2.2 _ rfl⟩

/-! ## Reload failure -/

/-- Claim C10, as stated, fails: the sync of `petstore` succeeds, the reload
fails, and the pass returns the reload error with a requeue delay of zero, not
`queueAfter` (three seconds here). -/
theorem reload_failure_zero_delay :
    (CreateOrUpdate sampleDeps worldReloadFails petstore).err = none
      ∧ worldReloadFails.HotReload = some (.other "reload failed")
      ∧ (Reconcile sampleDeps worldReloadFails petstoreReq).err = some (.other "reload failed")
      ∧ (Reconcile sampleDeps worldReloadFails petstoreReq).result.RequeueAfter = 0
      ∧ sampleDeps.queueAfter = 3000000000 := by
  decide

/-- Claim C10, amended: a reload failure does not roll back the sync and does
not add a delay.  In every pass in which the sync step returned no error and
the reload is issued and fails, the pass returns the reload error with the
delay the sync outcome fixed, which is zero, and the reload is the last remote
call of the pass: the calls are those of the sync step followed by the single
`HotReload`, so no `Create`, `Update` or `Delete` follows it. -/
theorem reload_failure (D : Deps) (W : World) (req : NamespacedName)
    (o : TykOasApiDefinition) (e : GoError) (hGet : W.Get req = .ok o)
    (hCtx : W.HttpContext = none) (hSync : (CreateOrUpdate D W o).err = none)
    (hIssued : RemoteCall.HotReload ∈ (Reconcile D W req).calls)
    (hRel : W.HotReload = some e) :
    (Reconcile D W req).err = some e
    ∧ (Reconcile D W req).result.RequeueAfter = 0
    ∧ (Reconcile D W req).calls = (CreateOrUpdate D W o).calls ++ [.HotReload]
    ∧ ∀ c ∈ (CreateOrUpdate D W o).calls, c ≠ RemoteCall.HotReload := by
  have hno := CreateOrUpdate_no_reload D W o
  rw [Reconcile_loaded D W req o hGet hCtx] at hIssued ⊢
  cases hmark : (CreateOrUpdate D W o).markForDeletion with
  | true =>
    rw [finish_deleting D W _ hmark]
    obtain ⟨hr, -, hc, -⟩ := reload_fields W 0 (CreateOrUpdate D W o).err
      (CreateOrUpdate D W o).obj (CreateOrUpdate D W o).calls (CreateOrUpdate D W o).writes
    refine ⟨by rw [reload_err, hRel], by rw [hr], hc, hno⟩
  | false =>
    unfold finish at hIssued ⊢
    simp only [hmark, hSync, Bool.not_false, if_true, Option.isSome_none,
      Bool.false_eq_true, if_false] at hIssued ⊢
    split at hIssued
    · exact absurd rfl (hno _ hIssued)
    · exact ⟨by rw [reload_err, hRel], by rw [(reload_fields _ _ _ _ _ _).1],
        (reload_fields _ _ _ _ _ _).2.2.1, hno⟩

/-- Claim C10 at a concrete input: the pass on `petstore` whose sync creates
the remote object and whose reload fails. -/
theorem reload_failure_witness :
    worldReloadFails.Get petstoreReq = .ok petstore
    ∧ worldReloadFails.HttpContext = none
    ∧ (CreateOrUpdate sampleDeps worldReloadFails petstore).err = none
    ∧ RemoteCall.HotReload ∈ (Reconcile sampleDeps worldReloadFails petstoreReq).calls
    ∧ (Reconcile sampleDeps worldReloadFails petstoreReq).err = some (.other "reload failed")
    ∧ (Reconcile sampleDeps worldReloadFails petstoreReq).calls
        = [.Exists "abc123", .Create "abc123" docWithID, .HotReload] :=
  have h := reload_failure sampleDeps worldReloadFails petstoreReq petstore
    (.other "reload failed") rfl rfl (by decide) (by decide) rfl
  ⟨rfl, rfl, by decide, by decide, h.1, by rw [h.2.2.1]; decide⟩

/-! ## Drift tolerance -/

/-- The four observed fields the reporter leaves when its config-map read
succeeds: each is the extraction of its own path. -/
theorem statusOf_fields (D : Deps) (W : World) (c : TykOasApiDefinition) (apiID : String)
    (cm : ConfigMap)
    (hcm : W.cmGetStatus ⟨c.ConfigmapRef.Namespace, c.ConfigmapRef.Name⟩ = .ok cm) :
    (statusOf D W c apiID).Status.Enabled
        = extract (D.GetBoolean (cm.get c.ConfigmapRef.KeyName)
            [TykOASExtenstionStr, "info", "state", "active"]) false c.Status.Enabled
    ∧ (statusOf D W c apiID).Status.Domain
        = extract (D.GetString (cm.get c.ConfigmapRef.KeyName)
            [TykOASExtenstionStr, "server", "customDomain"]) "" c.Status.Domain
    ∧ (statusOf D W c apiID).Status.ListenPath
        = extract (D.GetString (cm.get c.ConfigmapRef.KeyName)
            [TykOASExtenstionStr, "server", "listenPath", "value"]) "" c.Status.ListenPath
    ∧ (statusOf D W c apiID).Status.TargetURL
        = extract (D.GetString (cm.get c.ConfigmapRef.KeyName)
            [TykOASExtenstionStr, "upstream", "url"]) "" c.Status.TargetURL := by
  unfold statusOf
  by_cases hid : c.Status.ID = "" <;> simp [hid, hcm]

/-- Claim C11: when the reporter's config-map read succeeds, each of the four
observed fields is decided by the lookup of its own path and by nothing else:
it is the value found when the lookup succeeds, the zero value when the path
is missing, and the value it had when the lookup fails otherwise; a change of
the parser's answers on the other paths does not move it; the transaction on
the object is left as it was handed over; and the error `updateStatus` returns
is the error of the status write alone, never an extraction error. -/
theorem drift_tolerance (D : Deps) (W : World) (c : TykOasApiDefinition) (apiID : String)
    (cm : ConfigMap)
    (hcm : W.cmGetStatus ⟨c.ConfigmapRef.Namespace, c.ConfigmapRef.Name⟩ = .ok cm) :
    (((∀ v, D.GetBoolean (cm.get c.ConfigmapRef.KeyName)
          [TykOASExtenstionStr, "info", "state", "active"] = .ok v →
          (statusOf D W c apiID).Status.Enabled = v)
        ∧ (D.GetBoolean (cm.get c.ConfigmapRef.KeyName)
          [TykOASExtenstionStr, "info", "state", "active"]
            = .error GoError.KeyPathNotFoundError →
          (statusOf D W c apiID).Status.Enabled = false)
        ∧ (∀ e, D.GetBoolean (cm.get c.ConfigmapRef.KeyName)
          [TykOASExtenstionStr, "info", "state", "active"] = .error e →
          e ≠ GoError.KeyPathNotFoundError →
          (statusOf D W c apiID).Status.Enabled = c.Status.Enabled))
      ∧ ((∀ v, D.GetString (cm.get c.ConfigmapRef.KeyName)
          [TykOASExtenstionStr, "server", "customDomain"] = .ok v →
          (statusOf D W c apiID).Status.Domain = v)
        ∧ (D.GetString (cm.get c.ConfigmapRef.KeyName)
          [TykOASExtenstionStr, "server", "customDomain"]
            = .error GoError.KeyPathNotFoundError →
          (statusOf D W c apiID).Status.Domain = "")
        ∧ (∀ e, D.GetString (cm.get c.ConfigmapRef.KeyName)
          [TykOASExtenstionStr, "server", "customDomain"] = .error e →
          e ≠ GoError.KeyPathNotFoundError →
          (statusOf D W c apiID).Status.Domain = c.Status.Domain))
      ∧ ((∀ v, D.GetString (cm.get c.ConfigmapRef.KeyName)
          [TykOASExtenstionStr, "server", "listenPath", "value"] = .ok v →
          (statusOf D W c apiID).Status.ListenPath = v)
        ∧ (D.GetString (cm.get c.ConfigmapRef.KeyName)
          [TykOASExtenstionStr, "server", "listenPath", "value"]
            = .error GoError.KeyPathNotFoundError →
          (statusOf D W c apiID).Status.ListenPath = "")
        ∧ (∀ e, D.GetString (cm.get c.ConfigmapRef.KeyName)
          [TykOASExtenstionStr, "server", "listenPath", "value"] = .error e →
          e ≠ GoError.KeyPathNotFoundError →
          (statusOf D W c apiID).Status.ListenPath = c.Status.ListenPath))
      ∧ ((∀ v, D.GetString (cm.get c.ConfigmapRef.KeyName)
          [TykOASExtenstionStr, "upstream", "url"] = .ok v →
          (statusOf D W c apiID).Status.TargetURL = v)
        ∧ (D.GetString (cm.get c.ConfigmapRef.KeyName)
          [TykOASExtenstionStr, "upstream", "url"]
            = .error GoError.KeyPathNotFoundError →
          (statusOf D W c apiID).Status.TargetURL = "")
        ∧ (∀ e, D.GetString (cm.get c.ConfigmapRef.KeyName)
          [TykOASExtenstionStr, "upstream", "url"] = .error e →
          e ≠ GoError.KeyPathNotFoundError →
          (statusOf D W c apiID).Status.TargetURL = c.Status.TargetURL)))
    ∧ (∀ D2 : Deps,
        (D2.GetBoolean (cm.get c.ConfigmapRef.KeyName)
            [TykOASExtenstionStr, "info", "state", "active"]
          = D.GetBoolean (cm.get c.ConfigmapRef.KeyName)
            [TykOASExtenstionStr, "info", "state", "active"] →
          (statusOf D2 W c apiID).Status.Enabled = (statusOf D W c apiID).Status.Enabled)
        ∧ (D2.GetString (cm.get c.ConfigmapRef.KeyName)
            [TykOASExtenstionStr, "server", "customDomain"]
          = D.GetString (cm.get c.ConfigmapRef.KeyName)
            [TykOASExtenstionStr, "server", "customDomain"] →
          (statusOf D2 W c apiID).Status.Domain = (statusOf D W c apiID).Status.Domain)
        ∧ (D2.GetString (cm.get c.ConfigmapRef.KeyName)
            [TykOASExtenstionStr, "server", "listenPath", "value"]
          = D.GetString (cm.get c.ConfigmapRef.KeyName)
            [TykOASExtenstionStr, "server", "listenPath", "value"] →
          (statusOf D2 W c apiID).Status.ListenPath = (statusOf D W c apiID).Status.ListenPath)
        ∧ (D2.GetString (cm.get c.ConfigmapRef.KeyName)
            [TykOASExtenstionStr, "upstream", "url"]
          = D.GetString (cm.get c.ConfigmapRef.KeyName)
            [TykOASExtenstionStr, "upstream", "url"] →
          (statusOf D2 W c apiID).Status.TargetURL = (statusOf D W c apiID).Status.TargetURL))
    ∧ (statusOf D W c apiID).Status.LatestTransaction = c.Status.LatestTransaction
    ∧ (updateStatus D W c apiID).2 = W.StatusUpdate (updateStatus D W c apiID).1 := by
  obtain ⟨hE, hD, hL, hT⟩ := statusOf_fields D W c apiID cm hcm
  refine ⟨⟨⟨?_, ?_, ?_⟩, ⟨?_, ?_, ?_⟩, ⟨?_, ?_, ?_⟩, ⟨?_, ?_, ?_⟩⟩, ?_, ?_, rfl⟩
  · intro v h
    rw [hE, h]
    rfl
  · intro h
    rw [hE, h]
    rfl
  · intro e h hne
    rw [hE, h]
    simp [extract, hne]
  · intro v h
    rw [hD, h]
    rfl
  · intro h
    rw [hD, h]
    rfl
  · intro e h hne
    rw [hD, h]
    simp [extract, hne]
  · intro v h
    rw [hL, h]
    rfl
  · intro h
    rw [hL, h]
    rfl
  · intro e h hne
    rw [hL, h]
    simp [extract, hne]
  · intro v h
    rw [hT, h]
    rfl
  · intro h
    rw [hT, h]
    rfl
  · intro e h hne
    rw [hT, h]
    simp [extract, hne]
  · intro D2
    obtain ⟨hE2, hD2, hL2, hT2⟩ := statusOf_fields D2 W c apiID cm hcm
    refine ⟨?_, ?_, ?_, ?_⟩
    · intro h
      rw [hE, hE2, h]
    · intro h
      rw [hD, hD2, h]
    · intro h
      rw [hL, hL2, h]
    · intro h
      rw [hT, hT2, h]
  · rw [statusOf_LatestTransaction, hcm]

set_option maxRecDepth 100000 in
/-- Claim C11 at a concrete input: the resource `petstoreObserved` carries the
observed fields of an earlier document; the document now has an active state,
a listen path and an upstream URL and no custom domain.  The reporter records
the three values found and an empty domain, and the pass ends with these and a
`Successful` transaction. -/
theorem drift_tolerance_witness :
    worldDrift.cmGetStatus ⟨"default", "petstore-cm"⟩ = .ok ⟨[("oas.json", docDrift)]⟩
    ∧ petstoreObserved.Status
        = ⟨"abc123", "old.example.com", "/old/", "http://old.svc:8080", false,
            ⟨5, "Successful", ""⟩⟩
    ∧ (statusOf driftDeps worldDrift petstoreObserved "abc123").Status.Enabled = true
    ∧ (statusOf driftDeps worldDrift petstoreObserved "abc123").Status.Domain = ""
    ∧ (statusOf driftDeps worldDrift petstoreObserved "abc123").Status.ListenPath
        = "/petstore/"
    ∧ (statusOf driftDeps worldDrift petstoreObserved "abc123").Status.TargetURL
        = "http://petstore.svc:8080"
    ∧ (Reconcile driftDeps worldDrift petstoreReq).tykOAS.Status
        = ⟨"abc123", "", "/petstore/", "http://petstore.svc:8080", true,
            ⟨10, "Successful", ""⟩⟩
    ∧ (Reconcile driftDeps worldDrift petstoreReq).err = none :=
  have h := drift_tolerance driftDeps worldDrift petstoreObserved "abc123"
    ⟨[("oas.json", docDrift)]⟩ rfl
  ⟨rfl, rfl, h.1.1.1 true (by decide), h.1.2.1.2.1 (by decide),
    h.1.2.2.1.1 "/petstore/" (by decide),
    h.1.2.2.2.1 "http://petstore.svc:8080" (by decide), by decide, by decide⟩

/-! ## Dependency index -/

/-- Claim C12, as stated, fails: on a change to config map
`default/petstore-cm` a request is returned for `staging/orders`, whose
reference names the config map `staging/petstore-cm` of another namespace. -/
theorem other_namespace_dependent_enqueued :
    petstoreCM.Namespace = "default"
      ∧ orders.ConfigmapRef = ⟨"petstore-cm", "staging", "oas.json"⟩
      ∧ findOASApisDependentOnConfigmap sampleCache petstoreCM
        = [⟨⟨"default", "petstore"⟩⟩, ⟨⟨"staging", "orders"⟩⟩]
      ∧ (⟨⟨"staging", "orders"⟩⟩ : Request)
        ∈ findOASApisDependentOnConfigmap sampleCache petstoreCM := by
  decide

/-- Claim C12, amended: the dependency index is keyed by the name of the
referenced config map alone.  When the list call succeeds,
`findOASApisDependentOnConfigmap` returns, in order, one request per held
resource whose reference has the changed config map's name, carrying the
resource's own namespace and name, whatever namespace the reference or the
changed config map has; a resource whose reference has another name gets no
request; when the list call fails it returns no request. -/
theorem dependents_by_name (C : Cache) (cm : ClientObject) :
    (C.ListErr = none →
        findOASApisDependentOnConfigmap C cm
          = (C.Items.filter (fun o => decide (o.ConfigmapRef.Name = cm.Name))).map
              (fun o => ⟨⟨o.Namespace, o.Name⟩⟩))
    ∧ (C.ListErr = none → ∀ o ∈ C.Items, o.ConfigmapRef.Name = cm.Name →
        (⟨⟨o.Namespace, o.Name⟩⟩ : Request) ∈ findOASApisDependentOnConfigmap C cm)
    ∧ (∀ r ∈ findOASApisDependentOnConfigmap C cm,
        ∃ o ∈ C.Items, o.ConfigmapRef.Name = cm.Name
          ∧ r = ⟨⟨o.Namespace, o.Name⟩⟩)
    ∧ (∀ e, C.ListErr = some e → findOASApisDependentOnConfigmap C cm = [])
    ∧ (∀ cm2 : ClientObject, cm2.Name = cm.Name →
        findOASApisDependentOnConfigmap C cm2 = findOASApisDependentOnConfigmap C cm) := by
  have hfilter :
      C.Items.filter (fun o => decide (cm.GetName ∈ indexFunc o))
        = C.Items.filter (fun o => decide (o.ConfigmapRef.Name = cm.Name)) := by
    apply List.filter_congr
    intro o _
    simp [indexFunc, ClientObject.GetName, eq_comm]
  have hok : C.ListErr = none →
      findOASApisDependentOnConfigmap C cm
        = (C.Items.filter (fun o => decide (o.ConfigmapRef.Name = cm.Name))).map
            (fun o => ⟨⟨o.Namespace, o.Name⟩⟩) := by
    intro h
    simp only [findOASApisDependentOnConfigmap, Cache.List, h, hfilter]
  have herr : ∀ e, C.ListErr = some e → findOASApisDependentOnConfigmap C cm = [] := by
    intro e h
    simp only [findOASApisDependentOnConfigmap, Cache.List, h]
  refine ⟨hok, ?_, ?_, herr, ?_⟩
  · intro h o ho hn
    rw [hok h]
    exact List.mem_map.mpr ⟨o, List.mem_filter.mpr ⟨ho, by simpa using hn⟩, rfl⟩
  · intro r hr
    cases h : C.ListErr with
    | some e =>
      rw [herr e h] at hr
      cases hr
    | none =>
      rw [hok h] at hr
      obtain ⟨o, ho, hro⟩ := List.mem_map.mp hr
      have ho2 := List.mem_filter.mp ho
      exact ⟨o, ho2.1, by simpa using ho2.2, hro.symm⟩
  · intro cm2 h
    simp only [findOASApisDependentOnConfigmap, ClientObject.GetName, h]

/-! ## At most one external mutation -/

/-- The remote calls of `delete`: none, or the one `Delete`. -/
theorem delete_calls (D : Deps) (W : World) (o : TykOasApiDefinition) :
    (delete D W o).calls = [] ∨ (delete D W o).calls = [.Delete o.Status.ID] := by
  unfold delete
  split
  · split <;> simp
  · simp

/-- The remote calls of `createOrUpdateTykOASAPI`: none, or the existence
check followed by one `Create` or one `Update`. -/
theorem createOrUpdate_calls (D : Deps) (W : World) (o : TykOasApiDefinition) :
    (createOrUpdateTykOASAPI D W o).calls = []
    ∨ ∃ id doc, (createOrUpdateTykOASAPI D W o).calls = [.Exists id, .Create id doc]
        ∨ (createOrUpdateTykOASAPI D W o).calls = [.Exists id, .Update id doc] := by
  unfold createOrUpdateTykOASAPI
  dsimp only
  split
  · simp
  · split
    · simp
    · split
      · simp
      · split <;> split <;> simp

/-- The remote calls of the `CreateOrUpdate` step: none, or those of the
closure. -/
theorem CreateOrUpdate_calls (D : Deps) (W : World) (o : TykOasApiDefinition) :
    (CreateOrUpdate D W o).calls = []
    ∨ (CreateOrUpdate D W o).calls = (mutateFn D W o).calls := by
  rcases CreateOrUpdate_cases D W o with ⟨err, hs⟩ | ⟨-, -, -, hcalls, -⟩
  · left
    rw [hs]
  · exact Or.inr hcalls

/-- The remote calls of a pass: none when the resource is not loaded or the
HTTP context fails, else those of the `CreateOrUpdate` step, followed by the
reload when it is reached. -/
theorem Reconcile_calls (D : Deps) (W : World) (req : NamespacedName) :
    (Reconcile D W req).calls = []
    ∨ ∃ o, W.Get req = .ok o
        ∧ ((Reconcile D W req).calls = (CreateOrUpdate D W o).calls
          ∨ (Reconcile D W req).calls = (CreateOrUpdate D W o).calls ++ [.HotReload]) := by
  cases hGet : W.Get req with
  | error err =>
    left
    simp [Reconcile, hGet]
  | ok o =>
    cases hCtx : W.HttpContext with
    | some e =>
      left
      rw [Reconcile_no_context D W req o hGet e hCtx]
    | none =>
      right
      refine ⟨o, rfl, ?_⟩
      rw [Reconcile_loaded D W req o hGet hCtx]
      cases hmark : (CreateOrUpdate D W o).markForDeletion with
      | true =>
        rw [finish_deleting D W _ hmark]
        exact Or.inr (reload_fields _ _ _ _ _ _).2.2.1
      | false => exact (finish_live D W _ hmark).2.2.2

/-- Claim C13: whatever the collaborators answer, one run of `Reconcile`
issues at most one call among the remote `Create`, `Update` and `Delete`; a
pass on a resource whose deletion is requested issues no `Create` and no
`Update`; a pass on a resource whose deletion is not requested issues no
`Delete`. -/
theorem at_most_one_mutation (D : Deps) (W : World) (req : NamespacedName) :
    ((Reconcile D W req).calls.filter RemoteCall.isMutation).length ≤ 1
    ∧ (∀ o, W.Get req = .ok o → IsZero o.DeletionTimestamp = false →
        ∀ c ∈ (Reconcile D W req).calls, ∀ id doc,
          c ≠ RemoteCall.Create id doc ∧ c ≠ RemoteCall.Update id doc)
    ∧ (∀ o, W.Get req = .ok o → IsZero o.DeletionTimestamp = true →
        ∀ c ∈ (Reconcile D W req).calls, ∀ id, c ≠ RemoteCall.Delete id) := by
  refine ⟨?_, ?_, ?_⟩
  · rcases Reconcile_calls D W req with h | ⟨o, -, h⟩
    · rw [h]
      simp
    · have hstep : (CreateOrUpdate D W o).calls = []
          ∨ (CreateOrUpdate D W o).calls = [.Delete o.Status.ID]
          ∨ ∃ id doc, (CreateOrUpdate D W o).calls = [.Exists id, .Create id doc]
              ∨ (CreateOrUpdate D W o).calls = [.Exists id, .Update id doc] := by
        rcases CreateOrUpdate_calls D W o with h0 | hm
        · exact Or.inl h0
        · rw [hm]
          cases hz : IsZero o.DeletionTimestamp with
          | false =>
            rw [mutateFn_deleting D W o hz]
            rcases delete_calls D W o with hd | hd
            · exact Or.inl hd
            · exact Or.inr (Or.inl hd)
          | true =>
            rw [mutateFn_live D W o hz]
            rcases createOrUpdate_calls D W (AddFinalizer o D.TykOASFinalizerName)
              with hc | hc
            · exact Or.inl hc
            · exact Or.inr (Or.inr hc)
      rcases hstep with hs | hs | ⟨id, doc, hs | hs⟩ <;> rcases h with h | h <;>
        rw [h, hs] <;> simp [RemoteCall.isMutation]
  · intro o hGet hz c hc id doc
    rcases Reconcile_calls D W req with h | ⟨o2, hGet2, h⟩
    · rw [h] at hc
      cases hc
    · rw [hGet] at hGet2
      cases hGet2
      have hmem : c ∈ (CreateOrUpdate D W o).calls ∨ c = .HotReload := by
        rcases h with h | h
        · rw [h] at hc
          exact Or.inl hc
        · rw [h] at hc
          rcases List.mem_append.mp hc with hc | hc
          · exact Or.inl hc
          · exact Or.inr (by simpa using hc)
      rcases hmem with hmem | hmem
      · rcases CreateOrUpdate_calls D W o with h0 | hm
        · rw [h0] at hmem
          cases hmem
        · rw [hm, mutateFn_deleting D W o hz] at hmem
          rcases delete_calls D W o with hd | hd <;> rw [hd] at hmem <;> simp at hmem
          subst hmem
          simp
      · subst hmem
        simp
  · intro o hGet hz c hc id
    rcases Reconcile_calls D W req with h | ⟨o2, hGet2, h⟩
    · rw [h] at hc
      cases hc
    · rw [hGet] at hGet2
      cases hGet2
      have hmem : c ∈ (CreateOrUpdate D W o).calls ∨ c = .HotReload := by
        rcases h with h | h
        · rw [h] at hc
          exact Or.inl hc
        · rw [h] at hc
          rcases List.mem_append.mp hc with hc | hc
          · exact Or.inl hc
          · exact Or.inr (by simpa using hc)
      rcases hmem with hmem | hmem
      · rcases CreateOrUpdate_calls D W o with h0 | hm
        · rw [h0] at hmem
          cases hmem
        · rw [hm, mutateFn_live D W o hz] at hmem
          rcases createOrUpdate_calls D W (AddFinalizer o D.TykOASFinalizerName)
            with hd | ⟨i, d, hd | hd⟩ <;> rw [hd] at hmem <;> simp at hmem <;>
            rcases hmem with hmem | hmem <;> subst hmem <;> simp
      · subst hmem
        simp

/-! ## Finalizing without an external ID -/

/-- Claim C14: for a resource with an empty status ID, `delete` issues no
remote call, returns no error, and changes nothing of the object but its
finalizers: the finalizer name is gone, and every other finalizer is kept, in
order and as often as it occurred. -/
theorem delete_without_ID (D : Deps) (W : World) (o : TykOasApiDefinition)
    (hID : o.Status.ID = "") :
    (delete D W o).calls = []
    ∧ (delete D W o).err = none
    ∧ D.TykOASFinalizerName ∉ (delete D W o).obj.Finalizers
    ∧ (delete D W o).obj.Finalizers
        = o.Finalizers.filter (fun f => f != D.TykOASFinalizerName)
    ∧ (∀ f, f ≠ D.TykOASFinalizerName →
        (delete D W o).obj.Finalizers.count f = o.Finalizers.count f)
    ∧ (delete D W o).obj = { o with Finalizers := (delete D W o).obj.Finalizers } := by
  have hd : delete D W o = ⟨RemoveFinalizer o D.TykOASFinalizerName, none, []⟩ := by
    simp [delete, hID]
  rw [hd]
  refine ⟨rfl, rfl, ?_, rfl, ?_, rfl⟩
  · simp [RemoveFinalizer]
  · intro f hf
    simp only [RemoveFinalizer]
    rw [List.count_filter]
    simpa using hf

/-- Claim C14 at a concrete input: the unsynced resource under deletion loses
the controller's finalizer and keeps the two foreign ones, with no remote
call, in a world whose remote `Delete` would fail. -/
theorem delete_without_ID_witness :
    unsyncedDeleting.Status.ID = ""
    ∧ (delete sampleDeps worldDeleteFails unsyncedDeleting).calls = []
    ∧ (delete sampleDeps worldDeleteFails unsyncedDeleting).err = none
    ∧ (delete sampleDeps worldDeleteFails unsyncedDeleting).obj.Finalizers
        = ["example.io/first", "example.io/last"] :=
  have h := delete_without_ID sampleDeps worldDeleteFails unsyncedDeleting rfl
  ⟨rfl, h.1, h.2.1, by rw [h.2.2.2.1]; decide⟩

/-! ## Change filter -/

/-- Claim C15: the change filter rejects every creation notification and
accepts every update and every delete notification, whatever they carry. -/
theorem configmapEvents_filter (c : CreateEvent) (u : UpdateEvent) (d : DeleteEvent) :
    configmapEvents.Create c = false
    ∧ configmapEvents.Update u = true
    ∧ configmapEvents.Delete d = true :=
  ⟨rfl, rfl, rfl⟩

/-! ## Gateway reload -/

/-- Claim C16: `HotReload` returns no error exactly when the request goes
through, the response decodes into a message, and the message's status is the
string `ok`; a request error or a decoding error is returned as it is; for any
other decoded status, `OK` in capitals included, it returns an error whose text
is `API request completed, but with error: ` followed by the message field. -/
theorem HotReload_ok_iff (c : UniversalClient) :
    (Client.HotReload c = none ↔
        ∃ res msg, c.Get (toURL [endpointReload]) = .ok res
          ∧ c.JSON res = .ok msg ∧ msg.Status = "ok")
    ∧ (∀ res msg, c.Get (toURL [endpointReload]) = .ok res → c.JSON res = .ok msg →
        msg.Status ≠ "ok" →
        ∃ e, Client.HotReload c = some e
          ∧ e.Error = "API request completed, but with error: " ++ msg.Message)
    ∧ (∀ res msg, c.Get (toURL [endpointReload]) = .ok res → c.JSON res = .ok msg →
        msg.Status = "OK" → Client.HotReload c ≠ none)
    ∧ (∀ e, c.Get (toURL [endpointReload]) = .error e → Client.HotReload c = some e)
    ∧ (∀ res e, c.Get (toURL [endpointReload]) = .ok res → c.JSON res = .error e →
        Client.HotReload c = some e) := by
  have hbad : ∀ res msg, c.Get (toURL [endpointReload]) = .ok res → c.JSON res = .ok msg →
      msg.Status ≠ "ok" →
      Client.HotReload c
        = some (.other ("API request completed, but with error: " ++ msg.Message)) := by
    intro res msg hg hj hs
    simp [Client.HotReload, hg, hj, hs]
  refine ⟨?_, ?_, ?_, ?_, ?_⟩
  · constructor
    · intro h
      cases hg : c.Get (toURL [endpointReload]) with
      | error e => simp [Client.HotReload, hg] at h
      | ok res =>
        cases hj : c.JSON res with
        | error e => simp [Client.HotReload, hg, hj] at h
        | ok msg =>
          by_cases hs : msg.Status = "ok"
          · exact ⟨res, msg, rfl, hj, hs⟩
          · rw [hbad res msg hg hj hs] at h
            cases h
    · rintro ⟨res, msg, hg, hj, hs⟩
      simp [Client.HotReload, hg, hj, hs]
  · intro res msg hg hj hs
    exact ⟨_, hbad res msg hg hj hs, rfl⟩
  · intro res msg hg hj hs
    rw [hbad res msg hg hj (by rw [hs]; decide)]
    simp
  · intro e hg
    simp [Client.HotReload, hg]
  · intro res e hg hj
    simp [Client.HotReload, hg, hj]

end TykOperator
